import Mathlib

/-!
Verification development for the semantic analysis engine of the vetryx
repository: the AST pattern detectors under `src/analyzers/ast/detectors/`
(computed access, variable aliasing, string concatenation, escape sequences,
comma operator, destructured alias), together with the scope-tracker and
finding types they consume.

Conventions of the embedding:
- `tree_sitter::Node` is modelled as an inductive tree whose `text` field is
  the result of `utf8_text` over the source (`none` models a `Err` result on
  a non-UTF8 slice); field children and named children are explicit lists.
- Rust byte-slice panics (from `&text[1..text.len() - 1]`) are modelled with
  `Except Unit`: `Except.error ()` is a panic, `Except.ok` a normal return.
- File paths are plain strings; positions are row/column numbers.
-/

/-- Backslash character, written numerically. -/
def bsChar : Char := Char.ofNat 92

/-- Double-quote character. -/
def dqChar : Char := Char.ofNat 34

/-- Single-quote character. -/
def sqChar : Char := Char.ofNat 39

/-- Backtick character. -/
def btChar : Char := Char.ofNat 96

/-- Opening curly brace character. -/
def lbraceChar : Char := Char.ofNat 123

/-- Closing curly brace character. -/
def rbraceChar : Char := Char.ofNat 125

/-- One-character string. -/
def sstr (c : Char) : String := String.singleton c

/-- Surround a string with single quotes, as the Rust `format!` patterns
`'{}'` do in the finding descriptions. -/
def q (s : String) : String := sstr sqChar ++ s ++ sstr sqChar

/-- Dangerous global objects (`DANGEROUS_GLOBALS`, declared identically in
computed_access.rs, string_concat.rs and escape_sequences.rs). -/
def DANGEROUS_GLOBALS : List String := ["window", "globalThis", "global", "self", "this"]

/-- Dangerous function names (`DANGEROUS_FUNCTIONS`, declared identically in
computed_access.rs, string_concat.rs and escape_sequences.rs). -/
def DANGEROUS_FUNCTIONS : List String :=
  ["eval", "Function", "setTimeout", "setInterval", "setImmediate"]

/-- Dangerous modules (`DANGEROUS_MODULES` in destructured_alias.rs). -/
def DANGEROUS_MODULES : List String := ["child_process", "node:child_process"]

/-- Dangerous exports from child_process (`DANGEROUS_EXPORTS` in
destructured_alias.rs). -/
def DANGEROUS_EXPORTS : List String :=
  ["exec", "execSync", "spawn", "spawnSync", "execFile", "execFileSync", "fork"]

/-- Modelled from the spec: `is_global_dangerous_function` lives in the
scope module (scope.rs), which is absent from the provided sources; per
section 4.3 the check is membership in the closed dangerous-function table. -/
def is_global_dangerous_function (name : String) : Bool :=
  DANGEROUS_FUNCTIONS.contains name

/-- Modelled from the spec: `is_dangerous_module` lives in scope.rs, absent
from the provided sources; membership in the process-spawning module table. -/
def is_dangerous_module (m : String) : Bool :=
  DANGEROUS_MODULES.contains m

/-- Modelled from the spec: `is_dangerous_export` lives in scope.rs, absent
from the provided sources; the callers check the module first and then the
export name against the execution-export table. -/
def is_dangerous_export (_m e : String) : Bool :=
  DANGEROUS_EXPORTS.contains e

/-- A syntax-tree node, embedding `tree_sitter::Node` together with the text
its span selects from the source (`text = none` models a non-UTF8 `Err` from
`utf8_text`). `fields` models `child_by_field_name`, `named` the named
children in order, and the four numbers are the zero-based start/end
row/column of the node's span. -/
inductive Node where
  | mk (kind : String) (text : Option String) (fields : List (String × Node))
      (named : List Node) (startRow startCol endRow endCol : Nat) : Node

def Node.kind : Node → String
  | .mk k _ _ _ _ _ _ _ => k

def Node.text : Node → Option String
  | .mk _ t _ _ _ _ _ _ => t

def Node.fields : Node → List (String × Node)
  | .mk _ _ f _ _ _ _ _ => f

def Node.named : Node → List Node
  | .mk _ _ _ n _ _ _ _ => n

def Node.startRow : Node → Nat
  | .mk _ _ _ _ r _ _ _ => r

def Node.startCol : Node → Nat
  | .mk _ _ _ _ _ c _ _ => c

def Node.endRow : Node → Nat
  | .mk _ _ _ _ _ _ r _ => r

def Node.endCol : Node → Nat
  | .mk _ _ _ _ _ _ _ c => c

/-- `node.child_by_field_name(f)`. -/
def Node.childByField (n : Node) (f : String) : Option Node :=
  match n.fields.find? (fun p => p.1 == f) with
  | some p => some p.2
  | none => none

/-- `node.named_child(i)`. -/
def Node.namedChild (n : Node) (i : Nat) : Option Node :=
  n.named.get? i

/-- `node.utf8_text(...).unwrap_or("")`. -/
def Node.textOrEmpty (n : Node) : String :=
  match n.text with
  | some t => t
  | none => ""

/-- Severity of a finding (types.rs is not among the provided sources; the
shape follows section 3 of the spec and the constructor calls in the
detectors). -/
inductive Severity where
  | info | low | medium | high | critical
deriving DecidableEq, Repr

/-- Category of a finding. -/
inductive FindingCategory where
  | codeExecution | shellExecution
deriving DecidableEq, Repr

/-- Source location of a finding. -/
structure Location where
  path : String
  startLine : Nat
  endLine : Nat
  startColumn : Option Nat
  endColumn : Option Nat
deriving DecidableEq, Repr

/-- `Location::new(path, start_line, end_line)`. -/
def Location.new (p : String) (s e : Nat) : Location :=
  Location.mk p s e none none

/-- `location.with_columns(start, end)`. -/
def Location.with_columns (l : Location) (s e : Nat) : Location :=
  Location.mk l.path l.startLine l.endLine (some s) (some e)

/-- A detection result (spec section 3; types.rs is absent from the provided
sources, the fields follow the builder calls made by the detectors). -/
structure Finding where
  rule_id : String
  title : String
  description : String
  severity : Severity
  category : FindingCategory
  location : Location
  snippet : String
  remediation : Option String
  metadata : List (String × String)
deriving DecidableEq, Repr

/-- `Finding::new(rule_id, title, description, severity, category, location,
snippet)`. -/
def Finding.new (r t d : String) (sv : Severity) (c : FindingCategory)
    (l : Location) (sn : String) : Finding :=
  Finding.mk r t d sv c l sn none []

/-- `finding.with_remediation(r)`. -/
def Finding.with_remediation (f : Finding) (r : String) : Finding :=
  Finding.mk f.rule_id f.title f.description f.severity f.category f.location
    f.snippet (some r) f.metadata

/-- `finding.with_metadata(k, v)`. -/
def Finding.with_metadata (f : Finding) (k v : String) : Finding :=
  Finding.mk f.rule_id f.title f.description f.severity f.category f.location
    f.snippet f.remediation (f.metadata ++ [(k, v)])

/-- Modelled from the spec: the `Binding` type of the Scope Tracker
(scope.rs), absent from the provided sources; spec section 3. -/
inductive Binding where
  | dangerousFunctionAlias (name : String)
  | importBinding (module : String) (exportName : Option String)
deriving DecidableEq, Repr

/-- Modelled from the spec: the `ResolvedValue` type of the Scope Tracker
(scope.rs), absent from the provided sources; spec section 3. -/
inductive ResolvedValue where
  | unknown
  | dangerousFunction (name : String)
  | importResult (module : String) (exportName : Option String)
deriving DecidableEq, Repr

/-- The classification a recorded binding yields on lookup. -/
def Binding.toResolved : Binding → ResolvedValue
  | .dangerousFunctionAlias n => .dangerousFunction n
  | .importBinding m e => .importResult m e

/-- Modelled from the spec: the Scope Tracker state (scope.rs is absent from
the provided sources). `scopes` is the active scope stack, innermost first;
each scope maps identifier names to bindings, most recent first. -/
structure ScopeTracker where
  scopes : List (List (String × Binding))
  maxScopeDepth : Nat

/-- Modelled from the spec: scope-chain search, innermost first, first match
wins, capped at `max_scope_depth` hops (spec section 4.2). -/
def ScopeTracker.resolveGo : Nat → String → List (List (String × Binding)) → ResolvedValue
  | 0, _, _ => .unknown
  | _ + 1, _, [] => .unknown
  | fuel + 1, name, s :: rest =>
    match s.find? (fun p => p.1 == name) with
    | some p => p.2.toResolved
    | none => ScopeTracker.resolveGo fuel name rest

/-- Modelled from the spec: `ScopeTracker::resolve(name)` (spec section 4.2). -/
def ScopeTracker.resolve (st : ScopeTracker) (name : String) : ResolvedValue :=
  ScopeTracker.resolveGo st.maxScopeDepth name st.scopes

/-- Rust `str::starts_with(c)` with a `char` pattern: the first character
equals `c`. -/
def startsWithChar (s : String) (c : Char) : Bool :=
  s.data.head? == some c

/-- Rust `str::ends_with(c)` with a `char` pattern: the last character
equals `c`. -/
def endsWithChar (s : String) (c : Char) : Bool :=
  s.data.getLast? == some c

/-- Model of the Rust byte slice `&text[1..text.len() - 1]` used by the
string-unquoting helpers: when the text has fewer than two characters the
slice bounds are inverted (or out of range) and Rust panics, modelled as
`Except.error ()`; otherwise the first and last characters are removed.
(The guards in every caller ensure the first and last characters are
one-byte quote characters, so character indices and Rust byte indices
coincide at both boundaries.) -/
def sliceInner (text : String) : Except Unit String :=
  if text.length < 2 then Except.error ()
  else Except.ok (String.mk ((text.data.drop 1).dropLast))

/-- `char::is_ascii_hexdigit`. -/
def isAsciiHexDigit (c : Char) : Bool :=
  (48 ≤ c.toNat && c.toNat ≤ 57) || (97 ≤ c.toNat && c.toNat ≤ 102)
    || (65 ≤ c.toNat && c.toNat ≤ 70)

/-- Value of one hexadecimal digit. -/
def hexDigitVal (c : Char) : Nat :=
  if c.toNat ≤ 57 then c.toNat - 48
  else if 97 ≤ c.toNat then c.toNat - 87
  else c.toNat - 55

/-- Value of a big-endian string of hexadecimal digits, as
`from_str_radix(_, 16)` computes it. -/
def hexVal (l : List Char) : Nat :=
  l.foldl (fun a c => a * 16 + hexDigitVal c) 0

/-- Validity condition of `char::from_u32`: not a surrogate and at most
U+10FFFF. -/
def isValidScalar (n : Nat) : Bool :=
  n < 55296 || (57344 ≤ n && n ≤ 1114111)

/-- The character-consuming loop of
`EscapeSequenceDetector::decode_escapes`, carrying the `result` string and
the `has_escapes` flag (escape_sequences.rs lines 33-115). -/
def decodeLoop : List Char → String → Bool → String × Bool
  | [], acc, has => (acc, has)
  | c :: rest, acc, has =>
    if c = bsChar then
      match rest with
      | [] => (acc.push bsChar, true)
      | e :: rest2 =>
        if e = 'x' then
          let hx := (rest2.takeWhile isAsciiHexDigit).take 2
          let acc2 := if hx.length = 2 then acc.push (Char.ofNat (hexVal hx)) else acc
          decodeLoop (rest2.drop hx.length) acc2 true
        else if e = 'u' then
          if rest2.head? = some lbraceChar then
            let rest3 := rest2.tail
            let hx := rest3.takeWhile isAsciiHexDigit
            let afterHex := rest3.drop hx.length
            let rest4 := if afterHex.head? = some rbraceChar then afterHex.tail else afterHex
            let code := hexVal hx
            let acc2 := if hx.length ≠ 0 && decide (code < 4294967296) && isValidScalar code
              then acc.push (Char.ofNat code) else acc
            decodeLoop rest4 acc2 true
          else
            let hx := (rest2.takeWhile isAsciiHexDigit).take 4
            let acc2 := if hx.length = 4 then
                acc.push (if isValidScalar (hexVal hx) then Char.ofNat (hexVal hx)
                  else Char.ofNat 63)
              else acc
            decodeLoop (rest2.drop hx.length) acc2 true
        else if e = 'n' then decodeLoop rest2 (acc.push (Char.ofNat 10)) true
        else if e = 'r' then decodeLoop rest2 (acc.push (Char.ofNat 13)) true
        else if e = 't' then decodeLoop rest2 (acc.push (Char.ofNat 9)) true
        else if e = bsChar then decodeLoop rest2 (acc.push bsChar) true
        else if e = dqChar then decodeLoop rest2 (acc.push dqChar) true
        else if e = sqChar then decodeLoop rest2 (acc.push sqChar) true
        else decodeLoop rest2 ((acc.push bsChar).push e) true
    else decodeLoop rest (acc.push c) has
termination_by cs _ _ => cs.length
decreasing_by
  all_goals simp_wf
  all_goals try omega
  all_goals split
  all_goals try simp [List.length_drop]
  all_goals omega

/-- `EscapeSequenceDetector::decode_escapes`: `some` of the decoded string
when at least one backslash was seen, `none` otherwise. -/
def decode_escapes (s : String) : Option String :=
  let r := decodeLoop s.data "" false
  if r.2 then some r.1 else none

/-- `ComputedAccessDetector::rule_id`. -/
def ComputedAccess.ruleId : String := "AST-EXEC-001"

/-- `ComputedAccessDetector::title`. -/
def ComputedAccess.titleStr : String := "Computed property access to dangerous function"

/-- `ComputedAccessDetector::handles_node_type`. -/
def ComputedAccess.handles_node_type (t : String) : Bool :=
  t == "subscript_expression" || t == "call_expression"

/-- `ComputedAccessDetector::get_string_value` (computed_access.rs lines
34-46): strips matching double, single or backtick quotes; the inner
byte-slice may panic (see `sliceInner`). -/
def ComputedAccess.get_string_value (n : Node) : Except Unit (Option String) :=
  match n.text with
  | none => Except.ok none
  | some text =>
    if (startsWithChar text dqChar && endsWithChar text dqChar)
        || (startsWithChar text sqChar && endsWithChar text sqChar) then
      Except.map some (sliceInner text)
    else if startsWithChar text btChar && endsWithChar text btChar then
      Except.map some (sliceInner text)
    else Except.ok none

/-- The finding built by `ComputedAccessDetector::check_subscript` when the
pattern matches. -/
def ComputedAccess.mkFinding (node : Node) (path property object_text : String) : Finding :=
  ((((Finding.new ComputedAccess.ruleId ComputedAccess.titleStr
      ("Computed property access to " ++ q property ++ " on " ++ q object_text
        ++ " can execute arbitrary code. This pattern is often used to evade regex-based detection.")
      Severity.critical FindingCategory.codeExecution
      ((Location.new path (node.startRow + 1) (node.endRow + 1)).with_columns
        (node.startCol + 1) (node.endCol + 1))
      node.textOrEmpty).with_remediation
      "Remove dynamic property access to dangerous functions.").with_metadata
      "technique" "computed_property_access").with_metadata
      "function" property).with_metadata "ast_analyzed" "true"

/-- `ComputedAccessDetector::check_subscript` (computed_access.rs lines
99-168). -/
def ComputedAccess.check_subscript (node : Node) (path : String) :
    Except Unit (List Finding) :=
  match node.childByField "object" with
  | none => Except.ok []
  | some object =>
    match object.text with
    | none => Except.ok []
    | some object_text =>
      if !(DANGEROUS_GLOBALS.contains object_text) then Except.ok []
      else
        match node.childByField "index" with
        | none => Except.ok []
        | some index =>
          if index.kind ≠ "string" then Except.ok []
          else
            match ComputedAccess.get_string_value index with
            | Except.error e => Except.error e
            | Except.ok none => Except.ok []
            | Except.ok (some property) =>
              if DANGEROUS_FUNCTIONS.contains property then
                Except.ok [ComputedAccess.mkFinding node path property object_text]
              else Except.ok []

/-- `ComputedAccessDetector::analyze` (computed_access.rs lines 68-95).
The scope tracker argument is unused, mirroring `_scope_tracker`. -/
def ComputedAccess.analyze (_st : ScopeTracker) (node : Node) (path : String) :
    Except Unit (List Finding) :=
  if node.kind == "call_expression" then
    match node.childByField "function" with
    | some callee =>
      if callee.kind == "subscript_expression" then
        ComputedAccess.check_subscript callee path
      else Except.ok []
    | none => Except.ok []
  else if node.kind == "subscript_expression" then
    ComputedAccess.check_subscript node path
  else Except.ok []

/-- Common callee-selection step of the string-concat and escape-sequence
detectors: from a `call_expression`, its callee if that is a subscript
expression; a `subscript_expression` itself; otherwise nothing. -/
def subscriptOfNode (node : Node) : Option Node :=
  if node.kind == "call_expression" then
    match node.childByField "function" with
    | some callee =>
      if callee.kind == "subscript_expression" then some callee else none
    | none => none
  else if node.kind == "subscript_expression" then some node
  else none

/-- `StringConcatDetector::rule_id`. -/
def StringConcat.ruleId : String := "AST-EXEC-003"

/-- `StringConcatDetector::title`. -/
def StringConcat.titleStr : String := "String concatenation to access dangerous function"

/-- `StringConcatDetector::handles_node_type`. -/
def StringConcat.handles_node_type (t : String) : Bool :=
  t == "subscript_expression" || t == "call_expression"

/-- `StringConcatDetector::new` sets `max_depth` to 10. -/
def StringConcat.max_depth : Nat := 10

/-- `StringConcatDetector::resolve_concat` (string_concat.rs lines 35-78). -/
def StringConcat.resolve_concat (maxDepth : Nat) (node : Node) (depth : Nat) :
    Except Unit (Option String) :=
  if _h : depth > maxDepth then Except.ok none
  else
    if node.kind == "string" then
      match node.text with
      | none => Except.ok none
      | some text =>
        if (startsWithChar text dqChar && endsWithChar text dqChar)
            || (startsWithChar text sqChar && endsWithChar text sqChar) then
          Except.map some (sliceInner text)
        else if startsWithChar text btChar && endsWithChar text btChar then
          Except.map some (sliceInner text)
        else Except.ok none
    else if node.kind == "binary_expression" then
      match node.childByField "operator" with
      | none => Except.ok none
      | some operator =>
        match operator.text with
        | none => Except.ok none
        | some op_text =>
          if op_text ≠ "+" then Except.ok none
          else
            match node.childByField "left", node.childByField "right" with
            | some left, some right =>
              match StringConcat.resolve_concat maxDepth left (depth + 1) with
              | Except.error e => Except.error e
              | Except.ok none => Except.ok none
              | Except.ok (some left_val) =>
                match StringConcat.resolve_concat maxDepth right (depth + 1) with
                | Except.error e => Except.error e
                | Except.ok none => Except.ok none
                | Except.ok (some right_val) =>
                  Except.ok (some (left_val ++ right_val))
            | _, _ => Except.ok none
    else if node.kind == "parenthesized_expression" then
      match node.namedChild 0 with
      | none => Except.ok none
      | some inner => StringConcat.resolve_concat maxDepth inner (depth + 1)
    else Except.ok none
termination_by maxDepth + 1 - depth
decreasing_by
  all_goals omega

/-- The finding built by `StringConcatDetector::analyze` when the pattern
matches: snippet and lines from the analyzed node, columns from the index. -/
def StringConcat.mkFinding (node index : Node) (path resolved object_text : String) : Finding :=
  ((((Finding.new StringConcat.ruleId StringConcat.titleStr
      ("String concatenation resolves to " ++ q resolved ++ " on " ++ q object_text
        ++ ". This pattern is used to evade regex-based detection by splitting dangerous function names.")
      Severity.critical FindingCategory.codeExecution
      ((Location.new path (node.startRow + 1) (node.endRow + 1)).with_columns
        (index.startCol + 1) (index.endCol + 1))
      node.textOrEmpty).with_remediation
      "Remove the obfuscated dangerous function access.").with_metadata
      "technique" "string_concatenation").with_metadata
      "resolved_function" resolved).with_metadata "ast_analyzed" "true"

/-- `StringConcatDetector::analyze` (string_concat.rs lines 100-184). -/
def StringConcat.analyze (_st : ScopeTracker) (node : Node) (path : String) :
    Except Unit (List Finding) :=
  match subscriptOfNode node with
  | none => Except.ok []
  | some subscript =>
    match subscript.childByField "object" with
    | none => Except.ok []
    | some object =>
      match object.text with
      | none => Except.ok []
      | some object_text =>
        if !(DANGEROUS_GLOBALS.contains object_text) then Except.ok []
        else
          match subscript.childByField "index" with
          | none => Except.ok []
          | some index =>
            if index.kind ≠ "binary_expression" then Except.ok []
            else
              match StringConcat.resolve_concat StringConcat.max_depth index 0 with
              | Except.error e => Except.error e
              | Except.ok none => Except.ok []
              | Except.ok (some resolved) =>
                if DANGEROUS_FUNCTIONS.contains resolved then
                  Except.ok [StringConcat.mkFinding node index path resolved object_text]
                else Except.ok []

/-- `EscapeSequenceDetector::rule_id`. -/
def EscapeSequence.ruleId : String := "AST-EXEC-004"

/-- `EscapeSequenceDetector::title`. -/
def EscapeSequence.titleStr : String := "Escape sequence obfuscation of dangerous function"

/-- `EscapeSequenceDetector::handles_node_type`. -/
def EscapeSequence.handles_node_type (t : String) : Bool :=
  t == "subscript_expression" || t == "call_expression"

/-- `EscapeSequenceDetector::get_raw_string_content` (escape_sequences.rs
lines 125-135): strips matching double or single quotes, keeping the inner
content raw; the byte-slice may panic (see `sliceInner`). -/
def EscapeSequence.get_raw_string_content (n : Node) : Except Unit (Option String) :=
  match n.text with
  | none => Except.ok none
  | some text =>
    if (startsWithChar text dqChar && endsWithChar text dqChar)
        || (startsWithChar text sqChar && endsWithChar text sqChar) then
      Except.map some (sliceInner text)
    else Except.ok none

/-- The finding built by `EscapeSequenceDetector::analyze` when the decoded
index is dangerous: snippet and lines from the analyzed node, columns from
the index. -/
def EscapeSequence.mkFinding (node index : Node) (path decoded object_text : String) : Finding :=
  ((((Finding.new EscapeSequence.ruleId EscapeSequence.titleStr
      ("Escape sequences decode to " ++ q decoded ++ " on " ++ q object_text
        ++ ". This pattern uses character escapes (\\x, \\u) to hide dangerous function names.")
      Severity.critical FindingCategory.codeExecution
      ((Location.new path (node.startRow + 1) (node.endRow + 1)).with_columns
        (index.startCol + 1) (index.endCol + 1))
      node.textOrEmpty).with_remediation
      "Remove the obfuscated dangerous function access.").with_metadata
      "technique" "escape_sequence_obfuscation").with_metadata
      "decoded_function" decoded).with_metadata "ast_analyzed" "true"

/-- `EscapeSequenceDetector::analyze` (escape_sequences.rs lines 157-247). -/
def EscapeSequence.analyze (_st : ScopeTracker) (node : Node) (path : String) :
    Except Unit (List Finding) :=
  match subscriptOfNode node with
  | none => Except.ok []
  | some subscript =>
    match subscript.childByField "object" with
    | none => Except.ok []
    | some object =>
      match object.text with
      | none => Except.ok []
      | some object_text =>
        if !(DANGEROUS_GLOBALS.contains object_text) then Except.ok []
        else
          match subscript.childByField "index" with
          | none => Except.ok []
          | some index =>
            if index.kind ≠ "string" then Except.ok []
            else
              match EscapeSequence.get_raw_string_content index with
              | Except.error e => Except.error e
              | Except.ok none => Except.ok []
              | Except.ok (some raw) =>
                match decode_escapes raw with
                | none => Except.ok []
                | some decoded =>
                  if DANGEROUS_FUNCTIONS.contains decoded then
                    Except.ok [EscapeSequence.mkFinding node index path decoded object_text]
                  else Except.ok []

/-- `CommaOperatorDetector::rule_id`. -/
def CommaOperator.ruleId : String := "AST-EXEC-005"

/-- `CommaOperatorDetector::title`. -/
def CommaOperator.titleStr : String := "Comma operator indirect call to dangerous function"

/-- `CommaOperatorDetector::handles_node_type`. -/
def CommaOperator.handles_node_type (t : String) : Bool :=
  t == "call_expression"

/-- The finding built by `CommaOperatorDetector::analyze`: snippet and lines
from the call node, columns from the parenthesized callee. -/
def CommaOperator.mkFinding (node callee : Node) (path target_name : String) : Finding :=
  (((Finding.new CommaOperator.ruleId CommaOperator.titleStr
      ("Comma operator pattern " ++ q ("(expr, " ++ target_name ++ ")()")
        ++ " is used to call " ++ q target_name ++ " indirectly. This technique changes the "
        ++ q "this" ++ " binding and evades direct call detection.")
      Severity.critical FindingCategory.codeExecution
      ((Location.new path (node.startRow + 1) (node.endRow + 1)).with_columns
        (callee.startCol + 1) (callee.endCol + 1))
      node.textOrEmpty).with_remediation
      "Remove the indirect call pattern.").with_metadata
      "technique" "comma_operator_indirect_call").with_metadata
      "function" target_name |>.with_metadata "ast_analyzed" "true"

/-- `CommaOperatorDetector::analyze` (comma_operator.rs lines 43-132). The
scope tracker argument is unused, mirroring `_scope_tracker`; the rightmost
operand of the sequence expression is checked directly against the
dangerous-function table. -/
def CommaOperator.analyze (_st : ScopeTracker) (node : Node) (path : String) :
    List Finding :=
  if node.kind ≠ "call_expression" then []
  else
    match node.childByField "function" with
    | none => []
    | some callee =>
      if callee.kind ≠ "parenthesized_expression" then []
      else
        match callee.namedChild 0 with
        | none => []
        | some inner =>
          if inner.kind ≠ "sequence_expression" then []
          else
            match inner.named.getLast? with
            | none => []
            | some target =>
              if target.kind ≠ "identifier" then []
              else
                match target.text with
                | none => []
                | some target_name =>
                  if is_global_dangerous_function target_name then
                    [CommaOperator.mkFinding node callee path target_name]
                  else []

/-- `VariableAliasingDetector::rule_id`. -/
def VariableAliasing.ruleId : String := "AST-EXEC-002"

/-- `VariableAliasingDetector::title`. -/
def VariableAliasing.titleStr : String := "Variable aliasing of dangerous function"

/-- `VariableAliasingDetector::handles_node_type`. -/
def VariableAliasing.handles_node_type (t : String) : Bool :=
  t == "call_expression"

/-- The finding the variable-aliasing detector builds in its
`DangerousFunction` branch (variable_aliasing.rs lines 84-104): it uses
`self.rule_id()`, columns from the callee identifier. -/
def VariableAliasing.mkAliasFinding (node callee : Node)
    (path callee_name func_name : String) : Finding :=
  (((((Finding.new VariableAliasing.ruleId VariableAliasing.titleStr
      ("Variable " ++ q callee_name ++ " is an alias for " ++ q func_name
        ++ ". Calling it executes arbitrary code. This pattern is used to evade regex-based detection.")
      Severity.critical FindingCategory.codeExecution
      ((Location.new path (node.startRow + 1) (node.endRow + 1)).with_columns
        (callee.startCol + 1) (callee.endCol + 1))
      node.textOrEmpty).with_remediation
      "Remove the aliased dangerous function call.").with_metadata
      "technique" "variable_aliasing").with_metadata
      "alias" callee_name).with_metadata
      "target_function" func_name).with_metadata "ast_analyzed" "true"

/-- The finding the variable-aliasing detector builds in its `ImportResult`
branch (variable_aliasing.rs lines 120-140): the rule id is the hard-coded
string literal AST-SHELL-001 rather than `self.rule_id()`. -/
def VariableAliasing.mkImportFinding (node callee : Node)
    (path callee_name module exp : String) : Finding :=
  ((((((Finding.new "AST-SHELL-001" "Aliased shell execution function call"
      ("Variable " ++ q callee_name ++ " is an alias for "
        ++ q (module ++ "." ++ exp) ++ ". Calling it executes shell commands.")
      Severity.high FindingCategory.shellExecution
      ((Location.new path (node.startRow + 1) (node.endRow + 1)).with_columns
        (callee.startCol + 1) (callee.endCol + 1))
      node.textOrEmpty).with_remediation
      "Review the shell command execution and ensure user input is properly sanitized.").with_metadata
      "technique" "import_aliasing").with_metadata
      "alias" callee_name).with_metadata
      "module" module).with_metadata
      "export" exp).with_metadata "ast_analyzed" "true"

/-- `VariableAliasingDetector::analyze` (variable_aliasing.rs lines 41-149). -/
def VariableAliasing.analyze (st : ScopeTracker) (node : Node) (path : String) :
    List Finding :=
  if node.kind ≠ "call_expression" then []
  else
    match node.childByField "function" with
    | none => []
    | some callee =>
      if callee.kind ≠ "identifier" then []
      else
        match callee.text with
        | none => []
        | some callee_name =>
          match st.resolve callee_name with
          | ResolvedValue.dangerousFunction func_name =>
            if callee_name ≠ func_name then
              [VariableAliasing.mkAliasFinding node callee path callee_name func_name]
            else []
          | ResolvedValue.importResult module exportName =>
            if is_dangerous_module module then
              match exportName with
              | some exp =>
                if is_dangerous_export module exp then
                  [VariableAliasing.mkImportFinding node callee path callee_name module exp]
                else []
              | none => []
            else []
          | ResolvedValue.unknown => []

/-- `DestructuredAliasDetector::rule_id`. -/
def DestructuredAlias.ruleId : String := "AST-SHELL-001"

/-- `DestructuredAliasDetector::title`. -/
def DestructuredAlias.titleStr : String := "Destructured and aliased shell execution"

/-- `DestructuredAliasDetector::handles_node_type`. -/
def DestructuredAlias.handles_node_type (t : String) : Bool :=
  t == "variable_declarator" || t == "import_specifier"

/-- `DestructuredAliasDetector::get_string_value` (destructured_alias.rs
lines 36-46): strips matching double or single quotes; the byte-slice may
panic (see `sliceInner`). -/
def DestructuredAlias.get_string_value (n : Node) : Except Unit (Option String) :=
  match n.text with
  | none => Except.ok none
  | some text =>
    if (startsWithChar text dqChar && endsWithChar text dqChar)
        || (startsWithChar text sqChar && endsWithChar text sqChar) then
      Except.map some (sliceInner text)
    else Except.ok none

/-- The finding built for an aliased destructuring pattern
(destructured_alias.rs lines 213-234): snippet from the declarator node,
position from the pair pattern. -/
def DestructuredAlias.mkRequireFinding (node child : Node)
    (path original_name alias_name module : String) : Finding :=
  ((((((Finding.new DestructuredAlias.ruleId DestructuredAlias.titleStr
      ("Destructuring aliases " ++ q original_name ++ " to " ++ q alias_name
        ++ " from " ++ q module ++ ". Using " ++ q (alias_name ++ "()")
        ++ " will execute shell commands while evading detection.")
      Severity.high FindingCategory.shellExecution
      ((Location.new path (child.startRow + 1) (child.endRow + 1)).with_columns
        (child.startCol + 1) (child.endCol + 1))
      node.textOrEmpty).with_remediation
      "Remove the aliasing or use the original function name for clarity.").with_metadata
      "technique" "destructured_aliasing").with_metadata
      "original" original_name).with_metadata
      "alias" alias_name).with_metadata
      "module" module).with_metadata "ast_analyzed" "true"

/-- The per-child body of the destructuring loop in
`analyze_require_destructure` (destructured_alias.rs lines 169-237): a
shorthand pattern never yields a finding; a pair pattern yields one when
the key names a dangerous export and differs from the alias. -/
def DestructuredAlias.checkChild (child node : Node) (path module : String) : List Finding :=
  if child.kind == "shorthand_property_identifier_pattern" then
    match child.text with
    | none => []
    | some prop_name =>
      if DANGEROUS_EXPORTS.contains prop_name then []
      else []
  else if child.kind == "pair_pattern" then
    match child.childByField "key" with
    | none => []
    | some key =>
      match child.childByField "value" with
      | none => []
      | some value_node =>
        match key.text with
        | none => []
        | some original_name =>
          match value_node.text with
          | none => []
          | some alias_name =>
            if DANGEROUS_EXPORTS.contains original_name && original_name ≠ alias_name then
              [DestructuredAlias.mkRequireFinding node child path original_name alias_name module]
            else []
  else []

/-- `DestructuredAliasDetector::analyze_require_destructure`
(destructured_alias.rs lines 93-240). -/
def DestructuredAlias.analyze_require_destructure (node : Node) (path : String) :
    Except Unit (List Finding) :=
  match node.childByField "name" with
  | none => Except.ok []
  | some name =>
    if name.kind ≠ "object_pattern" then Except.ok []
    else
      match node.childByField "value" with
      | none => Except.ok []
      | some value =>
        if value.kind ≠ "call_expression" then Except.ok []
        else
          match value.childByField "function" with
          | none => Except.ok []
          | some func =>
            match func.text with
            | none => Except.ok []
            | some func_name =>
              if func_name ≠ "require" then Except.ok []
              else
                match value.childByField "arguments" with
                | none => Except.ok []
                | some args =>
                  match args.namedChild 0 with
                  | none => Except.ok []
                  | some first_arg =>
                    if first_arg.kind ≠ "string" then Except.ok []
                    else
                      match DestructuredAlias.get_string_value first_arg with
                      | Except.error e => Except.error e
                      | Except.ok none => Except.ok []
                      | Except.ok (some module) =>
                        if !(DANGEROUS_MODULES.contains module) then Except.ok []
                        else
                          Except.ok (name.named.foldl
                            (fun acc child =>
                              acc ++ DestructuredAlias.checkChild child node path module) [])

/-- The finding built for an aliased import specifier (destructured_alias.rs
lines 293-314): snippet from the enclosing import statement, position from
the specifier node. -/
def DestructuredAlias.mkImportFinding (node importStmt : Node)
    (path original_name alias_name module : String) : Finding :=
  ((((((Finding.new DestructuredAlias.ruleId DestructuredAlias.titleStr
      ("Import aliases " ++ q original_name ++ " to " ++ q alias_name
        ++ " from " ++ q module ++ ". Using " ++ q (alias_name ++ "()")
        ++ " will execute shell commands while evading detection.")
      Severity.high FindingCategory.shellExecution
      ((Location.new path (node.startRow + 1) (node.endRow + 1)).with_columns
        (node.startCol + 1) (node.endCol + 1))
      importStmt.textOrEmpty).with_remediation
      "Remove the aliasing or use the original function name for clarity.").with_metadata
      "technique" "import_aliasing").with_metadata
      "original" original_name).with_metadata
      "alias" alias_name).with_metadata
      "module" module).with_metadata "ast_analyzed" "true"

/-- `DestructuredAliasDetector::analyze_import_alias` (destructured_alias.rs
lines 243-325). The walk up `node.parent()` links is embedded by passing the
ancestor chain explicitly, innermost first: the loop stops at the first
ancestor whose kind is an import statement. -/
def DestructuredAlias.analyze_import_alias (node : Node) (ancestors : List Node)
    (path : String) : Except Unit (List Finding) :=
  match node.childByField "name" with
  | none => Except.ok []
  | some name =>
    match node.childByField "alias" with
    | none => Except.ok []
    | some aliasNode =>
      match name.text with
      | none => Except.ok []
      | some original_name =>
        match aliasNode.text with
        | none => Except.ok []
        | some alias_name =>
          if original_name == alias_name then Except.ok []
          else if !(DANGEROUS_EXPORTS.contains original_name) then Except.ok []
          else
            match ancestors.find? (fun p => p.kind == "import_statement") with
            | none => Except.ok []
            | some p =>
              match p.childByField "source" with
              | none => Except.ok []
              | some source_node =>
                match DestructuredAlias.get_string_value source_node with
                | Except.error e => Except.error e
                | Except.ok none => Except.ok []
                | Except.ok (some module) =>
                  if DANGEROUS_MODULES.contains module then
                    Except.ok [DestructuredAlias.mkImportFinding node p path
                      original_name alias_name module]
                  else Except.ok []

/-- `DestructuredAliasDetector::analyze` (destructured_alias.rs lines
68-88); the ancestor chain is threaded through for the import path. -/
def DestructuredAlias.analyze (_st : ScopeTracker) (node : Node)
    (ancestors : List Node) (path : String) : Except Unit (List Finding) :=
  if node.kind == "variable_declarator" then
    DestructuredAlias.analyze_require_destructure node path
  else if node.kind == "import_specifier" then
    DestructuredAlias.analyze_import_alias node ancestors path
  else Except.ok []

/-- Convenience constructor for concrete example nodes: all positions zero. -/
def nodeOf (k t : String) (fs : List (String × Node)) (nm : List Node) : Node :=
  Node.mk k (some t) fs nm 0 0 0 0

/-- The empty scope tracker with the default depth cap. -/
def stEmpty : ScopeTracker := ScopeTracker.mk [] 10

/-- Scope tracker state after the walker processed `const e = eval`
(population rule of spec section 4.2). -/
def stAliasE : ScopeTracker :=
  ScopeTracker.mk [[("e", Binding.dangerousFunctionAlias "eval")]] 10

/-- Scope tracker state after the walker processed
`const run = require(...).exec`-style destructuring of child_process. -/
def stRun : ScopeTracker :=
  ScopeTracker.mk [[("run", Binding.importBinding "child_process" (some "exec"))]] 10

/-- The identifier node `window`. -/
def exWindow : Node := nodeOf "identifier" "window" [] []

/-- The string literal node `"eval"`. -/
def exEvalStr : Node := nodeOf "string" (String.mk (dqChar :: "eval".data ++ [dqChar])) [] []

/-- The subscript node for `window["eval"]`. -/
def exSub : Node :=
  nodeOf "subscript_expression" "window[...]" [("object", exWindow), ("index", exEvalStr)] []

/-- The call node for `window["eval"](x)`. -/
def exCall : Node :=
  nodeOf "call_expression" "window[...](x)"
    [("function", exSub), ("arguments", nodeOf "arguments" "(x)" [] [])] []

/-- The string literal node `"length"`. -/
def exLenStr : Node := nodeOf "string" (String.mk (dqChar :: "length".data ++ [dqChar])) [] []

/-- The subscript node for `window["length"]`. -/
def exSubLen : Node :=
  nodeOf "subscript_expression" "window[...]" [("object", exWindow), ("index", exLenStr)] []

/-- A degenerate string node whose entire text is one double-quote character,
as tree-sitter error recovery produces for the malformed input `window["`. -/
def exBadStr : Node := nodeOf "string" (sstr dqChar) [] []

/-- The subscript node over the degenerate one-quote string index. -/
def exSubBad : Node :=
  nodeOf "subscript_expression" "window[..." [("object", exWindow), ("index", exBadStr)] []

/-- The string literal node `"ev"`. -/
def exEv : Node := nodeOf "string" (String.mk (dqChar :: "ev".data ++ [dqChar])) [] []

/-- The string literal node `"al"`. -/
def exAl : Node := nodeOf "string" (String.mk (dqChar :: "al".data ++ [dqChar])) [] []

/-- The `+` operator node. -/
def exPlusOp : Node := nodeOf "+" "+" [] []

/-- The binary expression node for `"ev" + "al"`. -/
def exBin : Node :=
  nodeOf "binary_expression" "..."
    [("operator", exPlusOp), ("left", exEv), ("right", exAl)] []

/-- The subscript node for `window["ev"+"al"]`. -/
def exSubCat : Node :=
  nodeOf "subscript_expression" "window[...]" [("object", exWindow), ("index", exBin)] []

/-- The call node for `window["ev"+"al"](x)`. -/
def exCallCat : Node :=
  nodeOf "call_expression" "window[...](x)"
    [("function", exSubCat), ("arguments", nodeOf "arguments" "(x)" [] [])] []

/-- The identifier node `id`. -/
def exId : Node := nodeOf "identifier" "id" [] []

/-- The binary expression node for `"ev" + id` (non-literal right operand). -/
def exBinBad : Node :=
  nodeOf "binary_expression" "..."
    [("operator", exPlusOp), ("left", exEv), ("right", exId)] []

/-- The subscript node for `window["ev"+id]`. -/
def exSubCatBad : Node :=
  nodeOf "subscript_expression" "window[...]" [("object", exWindow), ("index", exBinBad)] []

/-- Raw text of the string literal `"\x65\x76\x61\x6c"` (hex escapes for
`eval`), quotes included. -/
def exEscText : String :=
  String.mk (dqChar ::
    [bsChar, 'x', '6', '5', bsChar, 'x', '7', '6', bsChar, 'x', '6', '1',
      bsChar, 'x', '6', 'c'] ++ [dqChar])

/-- The string node carrying `exEscText`. -/
def exEscStr : Node := nodeOf "string" exEscText [] []

/-- The subscript node for `window["\x65\x76\x61\x6c"]`. -/
def exSubEsc : Node :=
  nodeOf "subscript_expression" "window[...]" [("object", exWindow), ("index", exEscStr)] []

/-- The call node for `window["\x65\x76\x61\x6c"](x)`. -/
def exCallEsc : Node :=
  nodeOf "call_expression" "window[...](x)"
    [("function", exSubEsc), ("arguments", nodeOf "arguments" "(x)" [] [])] []

/-- Raw text of a string literal holding the malformed, unterminated escape
`\u{65val` (no closing brace before a non-hex character), quotes included. -/
def exMalText : String :=
  String.mk (dqChar :: [bsChar, 'u', lbraceChar, '6', '5', 'v', 'a', 'l'] ++ [dqChar])

/-- The string node carrying `exMalText`. -/
def exMalStr : Node := nodeOf "string" exMalText [] []

/-- The subscript node for `window["\u{65val"]`. -/
def exSubMal : Node :=
  nodeOf "subscript_expression" "window[..." [("object", exWindow), ("index", exMalStr)] []

/-- The number node `0`. -/
def exZero : Node := nodeOf "number" "0" [] []

/-- The identifier node `eval`. -/
def exEvalId : Node := nodeOf "identifier" "eval" [] []

/-- The sequence expression node for `0, eval`. -/
def exSeq : Node := nodeOf "sequence_expression" "0, eval" [] [exZero, exEvalId]

/-- The parenthesized node for `(0, eval)`. -/
def exParen : Node := nodeOf "parenthesized_expression" "(0, eval)" [] [exSeq]

/-- The call node for `(0, eval)("x")`. -/
def exCommaCall : Node :=
  nodeOf "call_expression" "(0, eval)(...)"
    [("function", exParen), ("arguments", nodeOf "arguments" "(...)" [] [])] []

/-- The identifier node `parseInt`. -/
def exParseInt : Node := nodeOf "identifier" "parseInt" [] []

/-- The sequence expression node for `0, parseInt`. -/
def exSeqP : Node := nodeOf "sequence_expression" "0, parseInt" [] [exZero, exParseInt]

/-- The parenthesized node for `(0, parseInt)`. -/
def exParenP : Node := nodeOf "parenthesized_expression" "(0, parseInt)" [] [exSeqP]

/-- The call node for `(0, parseInt)("1")`. -/
def exCommaCallP : Node :=
  nodeOf "call_expression" "(0, parseInt)(...)"
    [("function", exParenP), ("arguments", nodeOf "arguments" "(...)" [] [])] []

/-- The identifier node `e`. -/
def exEId : Node := nodeOf "identifier" "e" [] []

/-- The call node for `e(x)`. -/
def exECall : Node :=
  nodeOf "call_expression" "e(x)"
    [("function", exEId), ("arguments", nodeOf "arguments" "(x)" [] [])] []

/-- The call node for `eval(x)`. -/
def exEvalCall : Node :=
  nodeOf "call_expression" "eval(x)"
    [("function", exEvalId), ("arguments", nodeOf "arguments" "(x)" [] [])] []

/-- The identifier node `run`. -/
def exRunId : Node := nodeOf "identifier" "run" [] []

/-- The call node for `run(cmd)`. -/
def exRunCall : Node :=
  nodeOf "call_expression" "run(cmd)"
    [("function", exRunId), ("arguments", nodeOf "arguments" "(cmd)" [] [])] []

/-- The property key node `exec`. -/
def exExecKey : Node := nodeOf "property_identifier" "exec" [] []

/-- The alias value node `run`. -/
def exRunVal : Node := nodeOf "identifier" "run" [] []

/-- The pair pattern node for `exec: run`. -/
def exPair : Node :=
  nodeOf "pair_pattern" "exec: run" [("key", exExecKey), ("value", exRunVal)] []

/-- The object pattern node for `{exec: run}`. -/
def exObjPat : Node := nodeOf "object_pattern" "..." [] [exPair]

/-- The string literal node for `'child_process'`. -/
def exCpStr : Node :=
  nodeOf "string" (String.mk (sqChar :: "child_process".data ++ [sqChar])) [] []

/-- The call node for `require('child_process')`. -/
def exReqCall : Node :=
  nodeOf "call_expression" "require(...)"
    [("function", nodeOf "identifier" "require" [] []),
      ("arguments", nodeOf "arguments" "(...)" [] [exCpStr])] []

/-- The declarator node for `{exec: run} = require('child_process')`. -/
def exDecl : Node :=
  nodeOf "variable_declarator" "..." [("name", exObjPat), ("value", exReqCall)] []

/-- The shorthand pattern node `exec` (no rename). -/
def exShorthand : Node := nodeOf "shorthand_property_identifier_pattern" "exec" [] []

/-- The object pattern node for `{exec}`. -/
def exObjPat2 : Node := nodeOf "object_pattern" "..." [] [exShorthand]

/-- The declarator node for `{exec} = require('child_process')`. -/
def exDecl2 : Node :=
  nodeOf "variable_declarator" "..." [("name", exObjPat2), ("value", exReqCall)] []

/-- The import specifier node for `exec as run`. -/
def exSpec : Node :=
  nodeOf "import_specifier" "exec as run"
    [("name", nodeOf "identifier" "exec" [] []), ("alias", nodeOf "identifier" "run" [] [])] []

/-- The import specifier node for `exec as exec` (alias equal to name). -/
def exSpecSame : Node :=
  nodeOf "import_specifier" "exec as exec"
    [("name", nodeOf "identifier" "exec" [] []), ("alias", nodeOf "identifier" "exec" [] [])] []

/-- The import statement node enclosing `exSpec`, with source
`'child_process'`. -/
def exImportStmt : Node :=
  nodeOf "import_statement" "..." [("source", exCpStr)] [exSpec]

/-- Lower-case hexadecimal digit character for a value below 16. -/
def hexDigitChar (n : Nat) : Char :=
  if n < 10 then Char.ofNat (48 + n) else Char.ofNat (87 + n)

/-- The four-character escape `\xHH` encoding one byte. -/
def hexEnc (b : Nat) : List Char :=
  [bsChar, 'x', hexDigitChar (b / 16), hexDigitChar (b % 16)]

/-- An expression made only of string literals joined by `+`, possibly
parenthesized: the shapes claim C3 quantifies over. -/
inductive Chain where
  | lit (s : String)
  | plus (l r : Chain)
  | paren (c : Chain)

/-- The concatenated value of a chain. -/
def Chain.value : Chain → String
  | .lit s => s
  | .plus l r => l.value ++ r.value
  | .paren c => c.value

/-- Nesting depth of a chain: each binary node and each parenthesis adds one
recursion level in `resolve_concat`. -/
def Chain.depth : Chain → Nat
  | .lit _ => 0
  | .plus l r => 1 + max l.depth r.depth
  | .paren c => 1 + c.depth

/-- The syntax tree of a chain: string literals carry their double-quoted
text, binary nodes a `+` operator and left/right fields, parentheses one
named child. -/
def Chain.toNode : Chain → Node
  | .lit s => Node.mk "string" (some (String.mk (dqChar :: s.data ++ [dqChar]))) [] [] 0 0 0 0
  | .plus l r => Node.mk "binary_expression" none
      [("operator", Node.mk "+" (some "+") [] [] 0 0 0 0),
        ("left", l.toNode), ("right", r.toNode)] [] 0 0 0 0
  | .paren c => Node.mk "parenthesized_expression" none [] [c.toNode] 0 0 0 0

attribute [simp] Node.kind Node.text Node.fields Node.named Node.startRow Node.startCol
  Node.endRow Node.endCol Node.childByField Node.namedChild Node.textOrEmpty
  startsWithChar endsWithChar sliceInner sstr nodeOf
  stEmpty stAliasE stRun exWindow exEvalStr exSub exCall exLenStr exSubLen exBadStr exSubBad
  exEv exAl exPlusOp exBin exSubCat exCallCat exId exBinBad exSubCatBad
  exEscText exEscStr exSubEsc exCallEsc exMalText exMalStr exSubMal
  exZero exEvalId exSeq exParen exCommaCall exParseInt exSeqP exParenP exCommaCallP
  exEId exECall exEvalCall exRunId exRunCall exExecKey exRunVal exPair exObjPat exCpStr
  exReqCall exDecl exShorthand exObjPat2 exDecl2 exSpec exSpecSame exImportStmt
  ComputedAccess.get_string_value ComputedAccess.check_subscript ComputedAccess.analyze
  ComputedAccess.ruleId ComputedAccess.titleStr ComputedAccess.handles_node_type
  StringConcat.ruleId StringConcat.handles_node_type
  EscapeSequence.ruleId EscapeSequence.handles_node_type
  CommaOperator.ruleId CommaOperator.handles_node_type
  VariableAliasing.ruleId VariableAliasing.handles_node_type
  DestructuredAlias.ruleId DestructuredAlias.handles_node_type
  subscriptOfNode StringConcat.analyze StringConcat.max_depth
  EscapeSequence.get_raw_string_content EscapeSequence.analyze
  CommaOperator.analyze VariableAliasing.analyze is_global_dangerous_function
  is_dangerous_module is_dangerous_export DANGEROUS_GLOBALS DANGEROUS_FUNCTIONS
  DANGEROUS_MODULES DANGEROUS_EXPORTS ScopeTracker.resolve ScopeTracker.resolveGo
  Binding.toResolved decode_escapes
  DestructuredAlias.analyze DestructuredAlias.analyze_require_destructure
  DestructuredAlias.analyze_import_alias DestructuredAlias.checkChild
  DestructuredAlias.get_string_value

/-- Pushing a character and appending commutes with cons on the data. -/
theorem push_append_mk (acc : String) (c : Char) (l : List Char) :
    acc.push c ++ String.mk l = acc ++ String.mk (c :: l) := by
  cases acc with
  | mk d =>
    show String.mk ((d ++ [c]) ++ l) = String.mk (d ++ (c :: l))
    simp

/-- Appending the empty string is the identity. -/
theorem append_mk_nil (acc : String) : acc ++ String.mk [] = acc := by
  cases acc with
  | mk d =>
    show String.mk (d ++ []) = String.mk d
    simp

/-- `takeWhile` collects exactly a fully-satisfying prefix that is followed
by a failing element. -/
theorem takeWhile_all_append (p : Char → Bool) :
    ∀ (l : List Char), (∀ c ∈ l, p c = true) → ∀ (y : Char), p y = false →
      ∀ (t : List Char), (l ++ y :: t).takeWhile p = l := by
  intro l
  induction l with
  | nil => intro _ y hy t; simp [List.takeWhile, hy]
  | cons a as ih =>
    intro h y hy t
    have ha : p a = true := h a (by simp)
    simp only [List.cons_append, List.takeWhile_cons, ha, if_true]
    have := ih (fun c hc => h c (by simp [hc])) y hy t
    simp [this]

theorem decodeLoop_no_escape : ∀ (cs : List Char), bsChar ∉ cs → ∀ (acc : String) (has : Bool),
    decodeLoop cs acc has = (acc ++ String.mk cs, has) := by
  intro cs
  induction cs with
  | nil => intro _ acc has; simp [decodeLoop, append_mk_nil]
  | cons c rest ih =>
    intro h acc has
    have hc : ¬ c = bsChar := fun e => h (by simp [e])
    have hr : bsChar ∉ rest := fun hm => h (by simp [hm])
    rw [decodeLoop.eq_def]
    simp only [if_neg hc]
    rw [ih hr (acc.push c) has, push_append_mk]

theorem decodeLoop_hex_step (h1 h2 : Char) (hh1 : isAsciiHexDigit h1 = true)
    (hh2 : isAsciiHexDigit h2 = true) (rest : List Char) (acc : String) (has : Bool) :
    decodeLoop (bsChar :: 'x' :: h1 :: h2 :: rest) acc has
      = decodeLoop rest (acc.push (Char.ofNat (hexVal [h1, h2]))) true := by
  rw [decodeLoop.eq_def]
  simp [List.takeWhile_cons, hh1, hh2]

theorem decodeLoop_u4_step (h1 h2 h3 h4 : Char)
    (hh1 : isAsciiHexDigit h1 = true) (hh2 : isAsciiHexDigit h2 = true)
    (hh3 : isAsciiHexDigit h3 = true) (hh4 : isAsciiHexDigit h4 = true)
    (rest : List Char) (acc : String) (has : Bool) :
    decodeLoop (bsChar :: 'u' :: h1 :: h2 :: h3 :: h4 :: rest) acc has
      = decodeLoop rest
          (acc.push (if isValidScalar (hexVal [h1, h2, h3, h4]) then
            Char.ofNat (hexVal [h1, h2, h3, h4]) else Char.ofNat 63)) true := by
  have hl : ¬ h1 = lbraceChar := by
    intro e; rw [e] at hh1; exact absurd hh1 (by decide)
  rw [decodeLoop.eq_def]
  simp [List.takeWhile_cons, hh1, hh2, hh3, hh4, hl]

theorem decodeLoop_ubrace_step (hx : List Char) (hne : hx ≠ [])
    (hhex : ∀ c ∈ hx, isAsciiHexDigit c = true)
    (hlt : hexVal hx < 4294967296) (hval : isValidScalar (hexVal hx) = true)
    (rest : List Char) (acc : String) (has : Bool) :
    decodeLoop (bsChar :: 'u' :: lbraceChar :: (hx ++ rbraceChar :: rest)) acc has
      = decodeLoop rest (acc.push (Char.ofNat (hexVal hx))) true := by
  rw [decodeLoop.eq_def]
  have htw : (hx ++ rbraceChar :: rest).takeWhile isAsciiHexDigit = hx :=
    takeWhile_all_append _ hx hhex rbraceChar (by decide) rest
  simp [htw, List.drop_left, hne, hlt, hval]

theorem decodeLoop_simple_step (e d : Char)
    (h : (e, d) ∈ [('n', Char.ofNat 10), ('r', Char.ofNat 13), ('t', Char.ofNat 9),
      (bsChar, bsChar), (dqChar, dqChar), (sqChar, sqChar)])
    (rest : List Char) (acc : String) (has : Bool) :
    decodeLoop (bsChar :: e :: rest) acc has = decodeLoop rest (acc.push d) true := by
  simp only [List.mem_cons, List.not_mem_nil, or_false, Prod.mk.injEq] at h
  rcases h with ⟨rfl, rfl⟩ | ⟨rfl, rfl⟩ | ⟨rfl, rfl⟩ | ⟨rfl, rfl⟩ | ⟨rfl, rfl⟩ | ⟨rfl, rfl⟩ <;>
    (rw [decodeLoop.eq_def]; simp +decide)

theorem decodeLoop_unknown_step (e : Char)
    (hx : e ≠ 'x') (hu : e ≠ 'u') (hn : e ≠ 'n') (hr : e ≠ 'r') (ht : e ≠ 't')
    (hb : e ≠ bsChar) (hd : e ≠ dqChar) (hs : e ≠ sqChar)
    (rest : List Char) (acc : String) (has : Bool) :
    decodeLoop (bsChar :: e :: rest) acc has
      = decodeLoop rest ((acc.push bsChar).push e) true := by
  rw [decodeLoop.eq_def]
  simp [hx, hu, hn, hr, ht, hb, hd, hs]

theorem isAsciiHexDigit_hexDigitChar (n : Nat) (h : n < 16) :
    isAsciiHexDigit (hexDigitChar n) = true := by
  interval_cases n <;> decide

theorem hexDigitVal_hexDigitChar (n : Nat) (h : n < 16) :
    hexDigitVal (hexDigitChar n) = n := by
  interval_cases n <;> decide

theorem hexVal_pair (h1 h2 : Char) :
    hexVal [h1, h2] = (hexDigitVal h1) * 16 + hexDigitVal h2 := by
  simp [hexVal, List.foldl]

theorem decodeLoop_hexEnc (b : Nat) (hb : b < 256) (rest : List Char)
    (acc : String) (has : Bool) :
    decodeLoop (hexEnc b ++ rest) acc has
      = decodeLoop rest (acc.push (Char.ofNat b)) true := by
  have hd1 : b / 16 < 16 := by omega
  have hd2 : b % 16 < 16 := by omega
  show decodeLoop (bsChar :: 'x' :: hexDigitChar (b / 16) :: hexDigitChar (b % 16) :: rest) acc has = _
  rw [decodeLoop_hex_step _ _ (isAsciiHexDigit_hexDigitChar _ hd1)
    (isAsciiHexDigit_hexDigitChar _ hd2)]
  rw [hexVal_pair, hexDigitVal_hexDigitChar _ hd1, hexDigitVal_hexDigitChar _ hd2]
  have : b / 16 * 16 + b % 16 = b := by omega
  rw [this]

theorem decodeLoop_hexEnc_join : ∀ (bytes : List Nat), (∀ b ∈ bytes, b < 256) →
    ∀ (acc : String) (has : Bool),
      decodeLoop ((bytes.map hexEnc).flatten) acc has
        = (acc ++ String.mk (bytes.map Char.ofNat), has || !bytes.isEmpty) := by
  intro bytes
  induction bytes with
  | nil => intro _ acc has; simp [decodeLoop, append_mk_nil]
  | cons b bs ih =>
    intro h acc has
    have hb : b < 256 := h b (by simp)
    simp only [List.map_cons, List.flatten_cons]
    rw [decodeLoop_hexEnc b hb _ acc has]
    rw [ih (fun x hx => h x (by simp [hx])) (acc.push (Char.ofNat b)) true]
    rw [push_append_mk]
    simp

theorem decode_escapes_hex_only (bytes : List Nat) (hne : bytes ≠ [])
    (h : ∀ b ∈ bytes, b < 128) :
    decode_escapes (String.mk ((bytes.map hexEnc).flatten))
      = some (String.mk (bytes.map Char.ofNat)) := by
  have h256 : ∀ b ∈ bytes, b < 256 := fun b hb => Nat.lt_of_lt_of_le (h b hb) (by omega)
  simp only [decode_escapes]
  rw [decodeLoop_hexEnc_join bytes h256 (String.mk []) false]
  have hne2 : bytes.isEmpty = false := by
    cases bytes with
    | nil => exact absurd rfl hne
    | cons x xs => rfl
  have hnil : ∀ s : String, String.mk [] ++ s = s := by
    intro s
    cases s with
    | mk d =>
      show String.mk ([] ++ d) = String.mk d
      simp
  simp only [hne2, Bool.not_false, Bool.or_true, if_pos, hnil]

theorem decode_escapes_no_escape (s : String) (h : bsChar ∉ s.data) :
    decode_escapes s = none := by
  simp only [decode_escapes]
  rw [decodeLoop_no_escape s.data h (String.mk []) false]
  simp

theorem mk_nil_append (s : String) : String.mk [] ++ s = s := by
  cases s with
  | mk d =>
    show String.mk ([] ++ d) = String.mk d
    simp

theorem push_empty_append (c : Char) (l : List Char) :
    "".push c ++ String.mk l = String.mk (c :: l) := rfl

theorem decode_escapes_x (h1 h2 : Char) (hh1 : isAsciiHexDigit h1 = true)
    (hh2 : isAsciiHexDigit h2 = true) (tail : List Char) (htail : bsChar ∉ tail) :
    decode_escapes (String.mk (bsChar :: 'x' :: h1 :: h2 :: tail))
      = some (String.mk (Char.ofNat (hexVal [h1, h2]) :: tail)) := by
  simp only [decode_escapes]
  rw [decodeLoop_hex_step h1 h2 hh1 hh2 tail _ false]
  rw [decodeLoop_no_escape tail htail _ true]
  simp [push_empty_append]

theorem decode_escapes_u4 (h1 h2 h3 h4 : Char)
    (hh1 : isAsciiHexDigit h1 = true) (hh2 : isAsciiHexDigit h2 = true)
    (hh3 : isAsciiHexDigit h3 = true) (hh4 : isAsciiHexDigit h4 = true)
    (hval : isValidScalar (hexVal [h1, h2, h3, h4]) = true)
    (tail : List Char) (htail : bsChar ∉ tail) :
    decode_escapes (String.mk (bsChar :: 'u' :: h1 :: h2 :: h3 :: h4 :: tail))
      = some (String.mk (Char.ofNat (hexVal [h1, h2, h3, h4]) :: tail)) := by
  simp only [decode_escapes]
  rw [decodeLoop_u4_step h1 h2 h3 h4 hh1 hh2 hh3 hh4 tail _ false]
  rw [decodeLoop_no_escape tail htail _ true]
  simp [hval, push_empty_append]

theorem decode_escapes_ubrace (hx : List Char) (hne : hx ≠ [])
    (hhex : ∀ c ∈ hx, isAsciiHexDigit c = true)
    (hlt : hexVal hx < 4294967296) (hval : isValidScalar (hexVal hx) = true)
    (tail : List Char) (htail : bsChar ∉ tail) :
    decode_escapes (String.mk (bsChar :: 'u' :: lbraceChar :: (hx ++ rbraceChar :: tail)))
      = some (String.mk (Char.ofNat (hexVal hx) :: tail)) := by
  simp only [decode_escapes]
  rw [decodeLoop_ubrace_step hx hne hhex hlt hval tail _ false]
  rw [decodeLoop_no_escape tail htail _ true]
  simp [push_empty_append]

theorem decode_escapes_simple (e d : Char)
    (h : (e, d) ∈ [('n', Char.ofNat 10), ('r', Char.ofNat 13), ('t', Char.ofNat 9),
      (bsChar, bsChar), (dqChar, dqChar), (sqChar, sqChar)])
    (tail : List Char) (htail : bsChar ∉ tail) :
    decode_escapes (String.mk (bsChar :: e :: tail)) = some (String.mk (d :: tail)) := by
  simp only [decode_escapes]
  rw [decodeLoop_simple_step e d h tail _ false]
  rw [decodeLoop_no_escape tail htail _ true]
  simp [push_empty_append]

theorem decode_escapes_unknown (e : Char)
    (hx : e ≠ 'x') (hu : e ≠ 'u') (hn : e ≠ 'n') (hr : e ≠ 'r') (ht : e ≠ 't')
    (hb : e ≠ bsChar) (hd : e ≠ dqChar) (hs : e ≠ sqChar)
    (tail : List Char) (htail : bsChar ∉ tail) :
    decode_escapes (String.mk (bsChar :: e :: tail))
      = some (String.mk (bsChar :: e :: tail)) := by
  simp only [decode_escapes]
  rw [decodeLoop_unknown_step e hx hu hn hr ht hb hd hs tail _ false]
  rw [decodeLoop_no_escape tail htail _ true]
  simp only [if_pos]
  rw [show ("".push bsChar).push e ++ String.mk tail = String.mk (bsChar :: e :: tail) from rfl]

/-- C2: For every string made only of hex escapes `\xHH` whose decoded bytes
form an ASCII identifier, `decode_escapes` returns that identifier; a string
with no backslash yields the distinct no-escapes result `none`; well-formed
`\xHH`, `\uHHHH`, `\u{H..H}` and the common single-character escapes decode
to their characters, and an unknown escape is passed through with the
backslash retained. -/
theorem escape_decoding_contract :
    (∀ (bytes : List Nat), bytes ≠ [] → (∀ b ∈ bytes, b < 128) →
      decode_escapes (String.mk ((bytes.map hexEnc).flatten))
        = some (String.mk (bytes.map Char.ofNat)))
    ∧ (∀ (s : String), bsChar ∉ s.data → decode_escapes s = none)
    ∧ (∀ (h1 h2 : Char), isAsciiHexDigit h1 = true → isAsciiHexDigit h2 = true →
        ∀ (tail : List Char), bsChar ∉ tail →
          decode_escapes (String.mk (bsChar :: 'x' :: h1 :: h2 :: tail))
            = some (String.mk (Char.ofNat (hexVal [h1, h2]) :: tail)))
    ∧ (∀ (h1 h2 h3 h4 : Char), isAsciiHexDigit h1 = true → isAsciiHexDigit h2 = true →
        isAsciiHexDigit h3 = true → isAsciiHexDigit h4 = true →
        isValidScalar (hexVal [h1, h2, h3, h4]) = true →
        ∀ (tail : List Char), bsChar ∉ tail →
          decode_escapes (String.mk (bsChar :: 'u' :: h1 :: h2 :: h3 :: h4 :: tail))
            = some (String.mk (Char.ofNat (hexVal [h1, h2, h3, h4]) :: tail)))
    ∧ (∀ (hx : List Char), hx ≠ [] → (∀ c ∈ hx, isAsciiHexDigit c = true) →
        hexVal hx < 4294967296 → isValidScalar (hexVal hx) = true →
        ∀ (tail : List Char), bsChar ∉ tail →
          decode_escapes (String.mk (bsChar :: 'u' :: lbraceChar :: (hx ++ rbraceChar :: tail)))
            = some (String.mk (Char.ofNat (hexVal hx) :: tail)))
    ∧ (∀ (e d : Char),
        (e, d) ∈ [('n', Char.ofNat 10), ('r', Char.ofNat 13), ('t', Char.ofNat 9),
          (bsChar, bsChar), (dqChar, dqChar), (sqChar, sqChar)] →
        ∀ (tail : List Char), bsChar ∉ tail →
          decode_escapes (String.mk (bsChar :: e :: tail)) = some (String.mk (d :: tail)))
    ∧ (∀ (e : Char), e ≠ 'x' → e ≠ 'u' → e ≠ 'n' → e ≠ 'r' → e ≠ 't' →
        e ≠ bsChar → e ≠ dqChar → e ≠ sqChar →
        ∀ (tail : List Char), bsChar ∉ tail →
          decode_escapes (String.mk (bsChar :: e :: tail))
            = some (String.mk (bsChar :: e :: tail))) :=
  ⟨decode_escapes_hex_only,
    decode_escapes_no_escape,
    fun h1 h2 hh1 hh2 tail htail => decode_escapes_x h1 h2 hh1 hh2 tail htail,
    fun h1 h2 h3 h4 hh1 hh2 hh3 hh4 hval tail htail =>
      decode_escapes_u4 h1 h2 h3 h4 hh1 hh2 hh3 hh4 hval tail htail,
    fun hx hne hhex hlt hval tail htail =>
      decode_escapes_ubrace hx hne hhex hlt hval tail htail,
    fun e d h tail htail => decode_escapes_simple e d h tail htail,
    fun e hx hu hn hr ht hb hd hs tail htail =>
      decode_escapes_unknown e hx hu hn hr ht hb hd hs tail htail⟩

/-- Witness for C2: the hex encoding of `eval` decodes to `eval`, and the
plain string `eval` (no backslash) yields the no-escapes result. -/
theorem escape_decoding_contract_witness :
    decode_escapes (String.mk (([101, 118, 97, 108].map hexEnc).flatten))
      = some (String.mk ([101, 118, 97, 108].map Char.ofNat))
    ∧ decode_escapes "eval" = none :=
  ⟨escape_decoding_contract.1 [101, 118, 97, 108] (by decide) (by decide),
    escape_decoding_contract.2.1 "eval" (by decide)⟩

theorem sliceInner_wrap (c c' : Char) (cs : List Char) :
    sliceInner (String.mk (c :: cs ++ [c'])) = Except.ok (String.mk cs) := by
  simp only [sliceInner]
  rw [if_neg (by simp [String.length])]
  congr 1
  simp

theorem resolve_concat_chain (maxD : Nat) : ∀ (c : Chain) (d : Nat), d + c.depth ≤ maxD →
    StringConcat.resolve_concat maxD c.toNode d = Except.ok (some c.value) := by
  intro c
  induction c with
  | lit s =>
    intro d hd
    rw [StringConcat.resolve_concat.eq_def, dif_neg (by omega : ¬ d > maxD)]
    simp only [Chain.toNode, Chain.value, Node.kind, Node.text]
    rw [if_pos (by decide)]
    have hstart : startsWithChar (String.mk (dqChar :: s.data ++ [dqChar])) dqChar = true := by
      simp [startsWithChar]
    have hend : endsWithChar (String.mk (dqChar :: s.data ++ [dqChar])) dqChar = true := by
      simp only [endsWithChar]
      rw [List.getLast?_concat]
      simp
    simp only [hstart, hend, Bool.true_and, Bool.and_self, true_or, if_pos]
    rw [sliceInner_wrap]
    rfl
  | plus l r ihl ihr =>
    intro d hd
    have hdl : d + 1 + l.depth ≤ maxD := by simp [Chain.depth] at hd; omega
    have hdr : d + 1 + r.depth ≤ maxD := by simp [Chain.depth] at hd; omega
    rw [StringConcat.resolve_concat.eq_def,
      dif_neg (by simp [Chain.depth] at hd; omega : ¬ d > maxD)]
    simp only [Chain.toNode, Node.kind, Node.childByField, Node.fields, Node.text]
    simp +decide
    rw [ihl (d + 1) hdl, ihr (d + 1) hdr]
    simp [Chain.value]
  | paren c ih =>
    intro d hd
    have : d + 1 + c.depth ≤ maxD := by simp [Chain.depth] at hd; omega
    rw [StringConcat.resolve_concat.eq_def, dif_neg (by simp [Chain.depth] at hd; omega : ¬ d > maxD)]
    simp only [Chain.toNode, Node.kind]
    rw [if_neg (by decide), if_neg (by decide), if_pos (by decide)]
    simp only [Node.namedChild, Node.named, List.get?]
    rw [ih (d + 1) this]
    rfl

theorem resolve_concat_chain_deep (maxD : Nat) : ∀ (c : Chain) (d : Nat), maxD < d + c.depth →
    StringConcat.resolve_concat maxD c.toNode d = Except.ok none := by
  intro c
  induction c with
  | lit s =>
    intro d hd
    simp only [Chain.depth] at hd
    rw [StringConcat.resolve_concat.eq_def, dif_pos (by omega : d > maxD)]
  | plus l r ihl ihr =>
    intro d hd
    simp only [Chain.depth] at hd
    by_cases hguard : d > maxD
    · rw [StringConcat.resolve_concat.eq_def, dif_pos hguard]
    · rw [StringConcat.resolve_concat.eq_def, dif_neg hguard]
      simp only [Chain.toNode, Node.kind, Node.childByField, Node.fields, Node.text]
      simp +decide
      by_cases hl : maxD < d + 1 + l.depth
      · rw [ihl (d + 1) hl]
      · rw [resolve_concat_chain maxD l (d + 1) (by omega)]
        rw [ihr (d + 1) (by omega)]
  | paren c ih =>
    intro d hd
    simp only [Chain.depth] at hd
    by_cases hguard : d > maxD
    · rw [StringConcat.resolve_concat.eq_def, dif_pos hguard]
    · rw [StringConcat.resolve_concat.eq_def, dif_neg hguard]
      simp only [Chain.toNode, Node.kind]
      rw [if_neg (by decide), if_neg (by decide), if_pos (by decide)]
      simp only [Node.namedChild, Node.named, List.get?]
      rw [ih (d + 1) (by omega)]

theorem resolve_concat_non_plus (maxD : Nat) (node op : Node) (opText : String) (d : Nat)
    (hd : d ≤ maxD) (hk : node.kind = "binary_expression")
    (hop : node.childByField "operator" = some op) (ht : op.text = some opText)
    (hne : opText ≠ "+") :
    StringConcat.resolve_concat maxD node d = Except.ok none := by
  rw [StringConcat.resolve_concat.eq_def, dif_neg (by omega : ¬ d > maxD)]
  simp only [hk, hop, ht]
  simp +decide [hne]

theorem resolve_concat_left_unfoldable (maxD : Nat) (node op left right : Node) (d : Nat)
    (hd : d ≤ maxD) (hk : node.kind = "binary_expression")
    (hop : node.childByField "operator" = some op) (ht : op.text = some "+")
    (hl : node.childByField "left" = some left)
    (hr : node.childByField "right" = some right)
    (hfail : StringConcat.resolve_concat maxD left (d + 1) = Except.ok none) :
    StringConcat.resolve_concat maxD node d = Except.ok none := by
  rw [StringConcat.resolve_concat.eq_def, dif_neg (by omega : ¬ d > maxD)]
  simp only [hk, hop, ht, hl, hr]
  simp +decide [hfail]

theorem resolve_concat_right_unfoldable (maxD : Nat) (node op left right : Node)
    (v : String) (d : Nat)
    (hd : d ≤ maxD) (hk : node.kind = "binary_expression")
    (hop : node.childByField "operator" = some op) (ht : op.text = some "+")
    (hl : node.childByField "left" = some left)
    (hr : node.childByField "right" = some right)
    (hlv : StringConcat.resolve_concat maxD left (d + 1) = Except.ok (some v))
    (hfail : StringConcat.resolve_concat maxD right (d + 1) = Except.ok none) :
    StringConcat.resolve_concat maxD node d = Except.ok none := by
  rw [StringConcat.resolve_concat.eq_def, dif_neg (by omega : ¬ d > maxD)]
  simp only [hk, hop, ht, hl, hr]
  simp +decide [hlv, hfail]

/-- C3: resolve_concat folds every chain of string literals joined by `+`
(parentheses included) whose nesting stays within the depth limit to the
exact concatenation; exceeding the depth, a non-`+` operator, or a failing
operand yields the not-foldable result; consequently the string-concat
detector fires with resolved function `eval` on `window["ev"+"al"](x)` and
yields nothing on `window["ev"+id]`. -/
theorem concat_folding_contract :
    (∀ (maxDepth : Nat) (c : Chain) (d : Nat), d + c.depth ≤ maxDepth →
      StringConcat.resolve_concat maxDepth c.toNode d = Except.ok (some c.value))
    ∧ (∀ (maxDepth : Nat) (c : Chain) (d : Nat), maxDepth < d + c.depth →
      StringConcat.resolve_concat maxDepth c.toNode d = Except.ok none)
    ∧ (∀ (maxDepth : Nat) (node op : Node) (opText : String) (d : Nat), d ≤ maxDepth →
      node.kind = "binary_expression" → node.childByField "operator" = some op →
      op.text = some opText → opText ≠ "+" →
      StringConcat.resolve_concat maxDepth node d = Except.ok none)
    ∧ (∀ (maxDepth : Nat) (node op left right : Node) (d : Nat), d ≤ maxDepth →
      node.kind = "binary_expression" → node.childByField "operator" = some op →
      op.text = some "+" → node.childByField "left" = some left →
      node.childByField "right" = some right →
      StringConcat.resolve_concat maxDepth left (d + 1) = Except.ok none →
      StringConcat.resolve_concat maxDepth node d = Except.ok none)
    ∧ (∀ (maxDepth : Nat) (node op left right : Node) (v : String) (d : Nat), d ≤ maxDepth →
      node.kind = "binary_expression" → node.childByField "operator" = some op →
      op.text = some "+" → node.childByField "left" = some left →
      node.childByField "right" = some right →
      StringConcat.resolve_concat maxDepth left (d + 1) = Except.ok (some v) →
      StringConcat.resolve_concat maxDepth right (d + 1) = Except.ok none →
      StringConcat.resolve_concat maxDepth node d = Except.ok none)
    ∧ (∃ f, StringConcat.analyze stEmpty exCallCat "f.js" = Except.ok [f]
        ∧ f.rule_id = "AST-EXEC-003"
        ∧ List.lookup "resolved_function" f.metadata = some "eval")
    ∧ StringConcat.analyze stEmpty exSubCatBad "f.js" = Except.ok []
    ∧ StringConcat.max_depth = 10 :=
  ⟨fun maxDepth => resolve_concat_chain maxDepth,
    fun maxDepth => resolve_concat_chain_deep maxDepth,
    fun maxDepth node op opText d hd hk hop ht hne =>
      resolve_concat_non_plus maxDepth node op opText d hd hk hop ht hne,
    fun maxDepth node op left right d hd hk hop ht hl hr hfail =>
      resolve_concat_left_unfoldable maxDepth node op left right d hd hk hop ht hl hr hfail,
    fun maxDepth node op left right v d hd hk hop ht hl hr hlv hfail =>
      resolve_concat_right_unfoldable maxDepth node op left right v d hd hk hop ht hl hr hlv hfail,
    ⟨StringConcat.mkFinding exCallCat exBin "f.js" "eval" "window",
      by simp +decide [StringConcat.resolve_concat, Except.map], rfl, rfl⟩,
    by simp +decide [StringConcat.resolve_concat, Except.map],
    rfl⟩

/-- Witness for C3: the chain `"ev" + "al"` folds to `eval` at the default
depth limit, and a chain of eleven nested parentheses exceeds it. -/
theorem concat_folding_contract_witness :
    StringConcat.resolve_concat 10 (Chain.plus (Chain.lit "ev") (Chain.lit "al")).toNode 0
      = Except.ok (some "eval")
    ∧ StringConcat.resolve_concat 10
        (Chain.paren (Chain.paren (Chain.paren (Chain.paren (Chain.paren (Chain.paren
          (Chain.paren (Chain.paren (Chain.paren (Chain.paren (Chain.paren
            (Chain.lit "x")))))))))))).toNode 0
      = Except.ok none :=
  ⟨by
    have h := concat_folding_contract.1 10 (Chain.plus (Chain.lit "ev") (Chain.lit "al")) 0
      (by decide)
    rw [show (Chain.plus (Chain.lit "ev") (Chain.lit "al")).value = "eval" from by decide] at h
    exact h,
    concat_folding_contract.2.1 10 _ 0 (by decide)⟩

theorem endsWithChar_wrap (c c' : Char) (cs : List Char) :
    endsWithChar (String.mk (c :: cs ++ [c'])) c' = true := by
  simp only [endsWithChar]
  rw [List.getLast?_concat]
  simp

theorem startsWithChar_wrap (c c' : Char) (cs : List Char) :
    startsWithChar (String.mk (c :: cs ++ [c'])) c = true := by
  simp [startsWithChar]

theorem ca_get_string_value_dq (idx : Node) (s : String)
    (hit : idx.text = some (String.mk (dqChar :: s.data ++ [dqChar]))) :
    ComputedAccess.get_string_value idx = Except.ok (some s) := by
  simp only [ComputedAccess.get_string_value, hit]
  rw [if_pos (by
    simp only [startsWithChar_wrap, endsWithChar_wrap, Bool.and_self, Bool.true_or])]
  rw [sliceInner_wrap]
  rfl

theorem contains_eq_false_of_not_mem {a : String} {l : List String} (h : a ∉ l) :
    l.contains a = false := by
  rw [Bool.eq_false_iff]
  intro hc
  exact h (List.elem_iff.mp hc)

/-- C4: the computed-access detector fires exactly when the subscripted
object text is one of the dangerous globals and the literal string index
unquotes to one of the dangerous function names; `window["eval"](x)` fires
with resolved function `eval`, `window["length"]` yields nothing. -/
theorem computed_access_contract :
    (∀ (st : ScopeTracker) (node obj idx : Node) (t s path : String),
      node.kind = "subscript_expression" →
      node.childByField "object" = some obj → obj.text = some t →
      node.childByField "index" = some idx → idx.kind = "string" →
      idx.text = some (String.mk (dqChar :: s.data ++ [dqChar])) →
      ∃ fs, ComputedAccess.analyze st node path = Except.ok fs
        ∧ (fs ≠ [] ↔ t ∈ DANGEROUS_GLOBALS ∧ s ∈ DANGEROUS_FUNCTIONS))
    ∧ (∃ f, ComputedAccess.analyze stEmpty exCall "f.js" = Except.ok [f]
        ∧ f.rule_id = "AST-EXEC-001"
        ∧ List.lookup "function" f.metadata = some "eval")
    ∧ ComputedAccess.analyze stEmpty exSubLen "f.js" = Except.ok [] := by
  refine ⟨?_, ⟨ComputedAccess.mkFinding exSub "f.js" "eval" "window",
    by simp +decide [Except.map], rfl, rfl⟩, by simp +decide [Except.map]⟩
  intro st node obj idx t s path hk hobj hot hidx hik hit
  have hsv := ca_get_string_value_dq idx s hit
  by_cases hg : t ∈ DANGEROUS_GLOBALS
  · have hgb : DANGEROUS_GLOBALS.contains t = true := List.elem_iff.mpr hg
    by_cases hf : s ∈ DANGEROUS_FUNCTIONS
    · have hfb : DANGEROUS_FUNCTIONS.contains s = true := List.elem_iff.mpr hf
      refine ⟨[ComputedAccess.mkFinding node path s t], ?_, by
        constructor
        · intro _; exact ⟨hg, hf⟩
        · intro _; simp⟩
      simp only [ComputedAccess.analyze, ComputedAccess.check_subscript, hk, hobj, hot,
        hidx, hik, hsv, hgb, hfb]
      simp +decide
    · have hfb : DANGEROUS_FUNCTIONS.contains s = false := contains_eq_false_of_not_mem hf
      refine ⟨[], ?_, by
        constructor
        · intro h; exact absurd rfl h
        · intro h; exact absurd h.2 hf⟩
      simp only [ComputedAccess.analyze, ComputedAccess.check_subscript, hk, hobj, hot,
        hidx, hik, hsv, hgb, hfb]
      simp +decide
  · have hgb : DANGEROUS_GLOBALS.contains t = false := contains_eq_false_of_not_mem hg
    refine ⟨[], ?_, by
      constructor
      · intro h; exact absurd rfl h
      · intro h; exact absurd h.1 hg⟩
    simp only [ComputedAccess.analyze, ComputedAccess.check_subscript, hk, hobj, hot, hgb]
    simp +decide

/-- Witness for C4: the subscript `window["eval"]` satisfies the shape
hypotheses and the detector fires on it. -/
theorem computed_access_contract_witness :
    ∃ fs, ComputedAccess.analyze stEmpty exSub "f.js" = Except.ok fs
      ∧ (fs ≠ [] ↔ "window" ∈ DANGEROUS_GLOBALS ∧ "eval" ∈ DANGEROUS_FUNCTIONS) :=
  computed_access_contract.1 stEmpty exSub exWindow exEvalStr "window" "eval" "f.js"
    rfl rfl rfl rfl rfl rfl

/-- C1: on `const e = eval; e(x)` the variable-aliasing detector produces
exactly one finding with resolved target `eval`; in general, for a call
whose identifier callee resolves to a dangerous function, a finding is
produced iff the callee name differs from the resolved function; the direct
call `eval(x)` yields no finding. The scope-tracker state is modelled from
the spec (scope.rs is absent from the sources). -/
theorem variable_aliasing_contract :
    (∃ f, VariableAliasing.analyze stAliasE exECall "f.js" = [f]
      ∧ f.rule_id = "AST-EXEC-002"
      ∧ List.lookup "target_function" f.metadata = some "eval")
    ∧ (∀ (st : ScopeTracker) (node callee : Node) (cname fname path : String),
        node.kind = "call_expression" →
        node.childByField "function" = some callee →
        callee.kind = "identifier" → callee.text = some cname →
        st.resolve cname = ResolvedValue.dangerousFunction fname →
        (VariableAliasing.analyze st node path ≠ [] ↔ cname ≠ fname))
    ∧ VariableAliasing.analyze stAliasE exEvalCall "f.js" = [] := by
  refine ⟨⟨VariableAliasing.mkAliasFinding exECall exEId "f.js" "e" "eval",
    by simp +decide, rfl, rfl⟩, ?_, by simp +decide⟩
  intro st node callee cname fname path hk hfun hck hct hres
  simp only [VariableAliasing.analyze, hk, hfun, hck, hct, hres]
  simp +decide

/-- Witness for C1: the aliased call `e(x)` under the binding created by
`const e = eval` satisfies the hypotheses, and a finding is produced since
the callee name `e` differs from the target `eval`. -/
theorem variable_aliasing_contract_witness :
    VariableAliasing.analyze stAliasE exECall "f.js" ≠ [] ↔ ("e" : String) ≠ "eval" :=
  variable_aliasing_contract.2.1 stAliasE exECall exEId "e" "eval" "f.js"
    rfl rfl rfl rfl rfl

/-- C6: the comma-operator detector ignores the scope tracker entirely,
fires exactly when the callee is a parenthesized sequence expression whose
rightmost operand is an identifier naming a dangerous global function;
`(0, eval)("x")` fires with target `eval`, `(0, parseInt)("1")` yields
nothing. -/
theorem comma_operator_contract :
    (∀ (st st' : ScopeTracker) (node : Node) (path : String),
      CommaOperator.analyze st node path = CommaOperator.analyze st' node path)
    ∧ (∀ (st : ScopeTracker) (node callee inner target : Node) (tn path : String),
        node.kind = "call_expression" → node.childByField "function" = some callee →
        callee.kind = "parenthesized_expression" → callee.namedChild 0 = some inner →
        inner.kind = "sequence_expression" → inner.named.getLast? = some target →
        target.kind = "identifier" → target.text = some tn →
        (CommaOperator.analyze st node path ≠ [] ↔ tn ∈ DANGEROUS_FUNCTIONS))
    ∧ (∃ f, CommaOperator.analyze stEmpty exCommaCall "f.js" = [f]
        ∧ f.rule_id = "AST-EXEC-005" ∧ List.lookup "function" f.metadata = some "eval")
    ∧ CommaOperator.analyze stEmpty exCommaCallP "f.js" = [] := by
  refine ⟨fun st st' node path => rfl, ?_,
    ⟨CommaOperator.mkFinding exCommaCall exParen "f.js" "eval", by simp +decide, rfl, rfl⟩,
    by simp +decide⟩
  intro st node callee inner target tn path hk hfun hck hin hik hlast htk htt
  simp only [CommaOperator.analyze, hk, hfun, hck, hin, hik, hlast, htk, htt]
  by_cases h : tn ∈ DANGEROUS_FUNCTIONS
  · have hb : is_global_dangerous_function tn = true := List.elem_iff.mpr h
    rw [hb]
    simp +decide
    simpa using h
  · have hb : is_global_dangerous_function tn = false := contains_eq_false_of_not_mem h
    rw [hb]
    simp +decide
    simpa using h

/-- Witness for C6: the concrete comma-operator call `(0, eval)("x")`
satisfies the shape hypotheses and fires because `eval` is in the
dangerous-function table. -/
theorem comma_operator_contract_witness :
    CommaOperator.analyze stEmpty exCommaCall "f.js" ≠ []
      ↔ ("eval" : String) ∈ DANGEROUS_FUNCTIONS :=
  comma_operator_contract.2.1 stEmpty exCommaCall exParen exSeq exEvalId "eval" "f.js"
    rfl rfl rfl rfl rfl rfl rfl rfl

theorem es_get_raw_dq (idx : Node) (cs : List Char)
    (hit : idx.text = some (String.mk (dqChar :: cs ++ [dqChar]))) :
    EscapeSequence.get_raw_string_content idx = Except.ok (some (String.mk cs)) := by
  simp only [EscapeSequence.get_raw_string_content, hit]
  rw [if_pos (by
    simp only [startsWithChar_wrap, endsWithChar_wrap, Bool.and_self, Bool.true_or])]
  rw [sliceInner_wrap]
  rfl

theorem decodeLoop_x_short (y : Char) (hy : isAsciiHexDigit y = false)
    (rest : List Char) (acc : String) (has : Bool) :
    decodeLoop (bsChar :: 'x' :: y :: rest) acc has = decodeLoop (y :: rest) acc true := by
  rw [decodeLoop.eq_def]
  simp [hy]

/-- Counterexample for C5: the malformed, unterminated escape `\u{65val` is
not treated as could-not-resolve: decode_escapes leniently decodes it to
`eval`, and the detector fires on `window["\u{65val"]` instead of
declining. -/
theorem escape_sequence_malformed_fires :
    EscapeSequence.analyze stEmpty exSubMal "f.js"
      = Except.ok [EscapeSequence.mkFinding exSubMal exMalStr "f.js" "eval" "window"]
    ∧ decode_escapes (String.mk [bsChar, 'u', lbraceChar, '6', '5', 'v', 'a', 'l'])
      = some "eval" := by
  constructor
  · simp +decide [decodeLoop, Except.map]
  · simp +decide [decodeLoop]

/-- C5 (amended): the escape-sequence detector fires only when the raw index
content actually contains a backslash (plain `"eval"` never triggers it),
and an encoding failure (non-UTF8 text) yields no finding; malformed escapes
however are decoded leniently rather than causing decline: a `\x` with
fewer than two hex digits contributes nothing and decoding continues, and
an unterminated `\u{...}` contributes the code point of the digits
collected, so a malformed index can still produce a finding. -/
theorem escape_sequence_contract_amended :
    (∀ (st : ScopeTracker) (node obj idx : Node) (t path : String) (cs : List Char),
      node.kind = "subscript_expression" →
      node.childByField "object" = some obj → obj.text = some t →
      node.childByField "index" = some idx → idx.kind = "string" →
      idx.text = some (String.mk (dqChar :: cs ++ [dqChar])) → bsChar ∉ cs →
      EscapeSequence.analyze st node path = Except.ok [])
    ∧ (∀ (st : ScopeTracker) (node obj idx : Node) (t path : String),
      node.kind = "subscript_expression" →
      node.childByField "object" = some obj → obj.text = some t →
      node.childByField "index" = some idx → idx.kind = "string" →
      idx.text = none →
      EscapeSequence.analyze st node path = Except.ok [])
    ∧ EscapeSequence.analyze stEmpty exSub "f.js" = Except.ok []
    ∧ (∀ (y : Char) (rest : List Char), isAsciiHexDigit y = false →
        bsChar ∉ y :: rest →
        decode_escapes (String.mk (bsChar :: 'x' :: y :: rest))
          = some (String.mk (y :: rest)))
    ∧ (∃ f, EscapeSequence.analyze stEmpty exSubMal "f.js" = Except.ok [f]
        ∧ List.lookup "decoded_function" f.metadata = some "eval") := by
  refine ⟨?_, ?_, by simp +decide [decodeLoop, Except.map], ?_,
    ⟨EscapeSequence.mkFinding exSubMal exMalStr "f.js" "eval" "window",
      by simp +decide [decodeLoop, Except.map], rfl⟩⟩
  · intro st node obj idx t path cs hk hobj hot hidx hik hit hnb
    have hraw := es_get_raw_dq idx cs hit
    have hdec : decode_escapes (String.mk cs) = none :=
      decode_escapes_no_escape _ (by simpa using hnb)
    by_cases hg : t ∈ DANGEROUS_GLOBALS
    · have hgb : DANGEROUS_GLOBALS.contains t = true := List.elem_iff.mpr hg
      simp +decide only [EscapeSequence.analyze, subscriptOfNode, hk, hobj, hot, hidx,
        hik, hraw, hgb, hdec, if_true, if_false, Bool.not_true, Bool.not_false]
    · have hgb : DANGEROUS_GLOBALS.contains t = false := contains_eq_false_of_not_mem hg
      simp +decide only [EscapeSequence.analyze, subscriptOfNode, hk, hobj, hot, hgb,
        if_true, if_false, Bool.not_true, Bool.not_false]
  · intro st node obj idx t path hk hobj hot hidx hik hit
    have hraw : EscapeSequence.get_raw_string_content idx = Except.ok none := by
      simp only [EscapeSequence.get_raw_string_content, hit]
    by_cases hg : t ∈ DANGEROUS_GLOBALS
    · have hgb : DANGEROUS_GLOBALS.contains t = true := List.elem_iff.mpr hg
      simp +decide only [EscapeSequence.analyze, subscriptOfNode, hk, hobj, hot, hidx,
        hik, hraw, hgb, if_true, if_false, Bool.not_true, Bool.not_false]
    · have hgb : DANGEROUS_GLOBALS.contains t = false := contains_eq_false_of_not_mem hg
      simp +decide only [EscapeSequence.analyze, subscriptOfNode, hk, hobj, hot, hgb,
        if_true, if_false, Bool.not_true, Bool.not_false]
  · intro y rest hy hnb
    simp only [decode_escapes]
    rw [decodeLoop_x_short y hy rest _ false]
    rw [decodeLoop_no_escape (y :: rest) hnb _ true]
    simp [mk_nil_append]

/-- Witness for C5 (amended): the plain index `"eval"` has no backslash, so
the detector declines on `window["eval"]`. -/
theorem escape_sequence_contract_amended_witness :
    EscapeSequence.analyze stEmpty exSub "f.js" = Except.ok [] :=
  escape_sequence_contract_amended.1 stEmpty exSub exWindow exEvalStr "window" "f.js"
    "eval".data rfl rfl rfl rfl rfl rfl (by decide)

/-- C7: the destructured/aliased-import detector fires exactly on a rename
of a dangerous export of a dangerous module: a shorthand destructured
property never yields a finding, a pair pattern yields one iff its key is a
dangerous export differing from the alias, an import specifier whose alias
equals its name yields nothing, and the concrete rename examples fire. -/
theorem destructured_alias_contract :
    (∃ f, DestructuredAlias.analyze stEmpty exDecl [] "f.js" = Except.ok [f]
      ∧ f.rule_id = "AST-SHELL-001"
      ∧ List.lookup "original" f.metadata = some "exec"
      ∧ List.lookup "alias" f.metadata = some "run"
      ∧ List.lookup "module" f.metadata = some "child_process")
    ∧ DestructuredAlias.analyze stEmpty exDecl2 [] "f.js" = Except.ok []
    ∧ (∀ (child node : Node) (path module : String),
        child.kind = "shorthand_property_identifier_pattern" →
        DestructuredAlias.checkChild child node path module = [])
    ∧ (∀ (child node key value : Node) (ko ao path module : String),
        child.kind = "pair_pattern" →
        child.childByField "key" = some key →
        child.childByField "value" = some value →
        key.text = some ko → value.text = some ao →
        (DestructuredAlias.checkChild child node path module ≠ []
          ↔ ko ∈ DANGEROUS_EXPORTS ∧ ko ≠ ao))
    ∧ (∀ (node name aliasNode : Node) (nm : String) (ancestors : List Node) (path : String),
        node.childByField "name" = some name →
        node.childByField "alias" = some aliasNode →
        name.text = some nm → aliasNode.text = some nm →
        DestructuredAlias.analyze_import_alias node ancestors path = Except.ok [])
    ∧ (∃ f, DestructuredAlias.analyze stEmpty exSpec [exImportStmt] "f.js" = Except.ok [f]
        ∧ f.rule_id = "AST-SHELL-001"
        ∧ List.lookup "original" f.metadata = some "exec"
        ∧ List.lookup "alias" f.metadata = some "run")
    ∧ DestructuredAlias.analyze stEmpty exSpecSame [exImportStmt] "f.js" = Except.ok [] := by
  refine ⟨⟨DestructuredAlias.mkRequireFinding exDecl exPair "f.js" "exec" "run" "child_process",
      by simp +decide [Except.map], rfl, rfl, rfl, rfl⟩,
    by simp +decide [Except.map], ?_, ?_, ?_,
    ⟨DestructuredAlias.mkImportFinding exSpec exImportStmt "f.js" "exec" "run" "child_process",
      by simp +decide [Except.map], rfl, rfl, rfl⟩,
    by simp +decide [Except.map]⟩
  · intro child node path module hk
    simp +decide only [DestructuredAlias.checkChild, hk, if_true, if_false]
    cases child.text with
    | none => rfl
    | some prop => by_cases h : DANGEROUS_EXPORTS.contains prop <;> simp [h]
  · intro child node key value ko ao path module hk hkey hval hko hao
    simp +decide only [DestructuredAlias.checkChild, hk, hkey, hval, hko, hao,
      if_true, if_false]
    by_cases he : ko ∈ DANGEROUS_EXPORTS
    · have heb : DANGEROUS_EXPORTS.contains ko = true := List.elem_iff.mpr he
      by_cases ha : ko = ao
      · simp +decide [heb, ha]
      · simp +decide [heb, ha]
        have hd : ko = "exec" ∨ ko = "execSync" ∨ ko = "spawn" ∨ ko = "spawnSync"
            ∨ ko = "execFile" ∨ ko = "execFileSync" ∨ ko = "fork" := by simpa using he
        tauto
    · have heb : DANGEROUS_EXPORTS.contains ko = false := contains_eq_false_of_not_mem he
      simp +decide [heb]
  · intro node name aliasNode nm ancestors path hname halias hnt hat
    simp +decide only [DestructuredAlias.analyze_import_alias, hname, halias, hnt, hat,
      beq_self_eq_true, if_true, if_false]

/-- Witness for C7: the pair pattern `exec: run` satisfies the shape
hypotheses and yields a finding because `exec` is a dangerous export renamed
to `run`. -/
theorem destructured_alias_contract_witness :
    DestructuredAlias.checkChild exPair exDecl "f.js" "child_process" ≠ []
      ↔ ("exec" : String) ∈ DANGEROUS_EXPORTS ∧ ("exec" : String) ≠ "run" :=
  destructured_alias_contract.2.2.2.1 exPair exDecl exExecKey exRunVal "exec" "run"
    "f.js" "child_process" rfl rfl rfl rfl rfl

/-- C8 (code defect): on the degenerate string node whose whole text is one
double-quote character, as tree-sitter error recovery produces for the
malformed source `window["`, the computed-access detector does not return
an empty finding list: `get_string_value` evaluates the byte slice
`&text[1..text.len() - 1]` with inverted bounds, which panics (modelled as
`Except.error`), aborting the analysis of that node instead of yielding no
finding. -/
theorem computed_access_degenerate_string_panics :
    ComputedAccess.analyze stEmpty exSubBad "f.js" = Except.error ()
    ∧ EscapeSequence.analyze stEmpty exSubBad "f.js" = Except.error () := by
  constructor
  · simp +decide [Except.map]
  · simp +decide [Except.map]

theorem ca_analyze_call_eq_subscript (st : ScopeTracker) (node sub : Node) (path : String)
    (hk : node.kind = "call_expression")
    (hfun : node.childByField "function" = some sub)
    (hsk : sub.kind = "subscript_expression") :
    ComputedAccess.analyze st node path = ComputedAccess.analyze st sub path := by
  simp +decide only [ComputedAccess.analyze, hk, hfun, hsk, if_true, if_false]

theorem subscriptOfNode_call (node sub : Node)
    (hk : node.kind = "call_expression")
    (hfun : node.childByField "function" = some sub)
    (hsk : sub.kind = "subscript_expression") :
    subscriptOfNode node = some sub := by
  simp +decide only [subscriptOfNode, hk, hfun, hsk, if_true, if_false]

theorem subscriptOfNode_self (sub : Node) (hsk : sub.kind = "subscript_expression") :
    subscriptOfNode sub = some sub := by
  simp +decide only [subscriptOfNode, hsk, if_true, if_false]

theorem sc_analyze_length_eq (st st' : ScopeTracker) (node node' sub : Node) (path : String)
    (h : subscriptOfNode node = some sub) (h' : subscriptOfNode node' = some sub) :
    Except.map List.length (StringConcat.analyze st node path)
      = Except.map List.length (StringConcat.analyze st' node' path) := by
  simp only [StringConcat.analyze, h, h']
  repeat' split
  all_goals rfl

theorem es_analyze_length_eq (st st' : ScopeTracker) (node node' sub : Node) (path : String)
    (h : subscriptOfNode node = some sub) (h' : subscriptOfNode node' = some sub) :
    Except.map List.length (EscapeSequence.analyze st node path)
      = Except.map List.length (EscapeSequence.analyze st' node' path) := by
  simp only [EscapeSequence.analyze, h, h']
  repeat' split
  all_goals rfl

/-- C9: the computed-access, string-concat and escape-sequence detectors all
declare interest in both call expressions and subscript expressions, and on
a call `G[S](args)` whose callee subscript matches their pattern each of
them reports once at the call node and once more at the embedded subscript
node, so a walk dispatching at every node reports the construct twice. -/
theorem double_reporting_contract :
    (ComputedAccess.handles_node_type "call_expression" = true
      ∧ ComputedAccess.handles_node_type "subscript_expression" = true
      ∧ StringConcat.handles_node_type "call_expression" = true
      ∧ StringConcat.handles_node_type "subscript_expression" = true
      ∧ EscapeSequence.handles_node_type "call_expression" = true
      ∧ EscapeSequence.handles_node_type "subscript_expression" = true)
    ∧ (∀ (st : ScopeTracker) (node sub : Node) (path : String),
        node.kind = "call_expression" →
        node.childByField "function" = some sub →
        sub.kind = "subscript_expression" →
        ComputedAccess.analyze st node path = ComputedAccess.analyze st sub path
        ∧ Except.map List.length (StringConcat.analyze st node path)
            = Except.map List.length (StringConcat.analyze st sub path)
        ∧ Except.map List.length (EscapeSequence.analyze st node path)
            = Except.map List.length (EscapeSequence.analyze st sub path))
    ∧ (Except.map List.length (ComputedAccess.analyze stEmpty exCall "f.js") = Except.ok 1
        ∧ Except.map List.length (ComputedAccess.analyze stEmpty exSub "f.js") = Except.ok 1
        ∧ Except.map List.length (StringConcat.analyze stEmpty exCallCat "f.js") = Except.ok 1
        ∧ Except.map List.length (StringConcat.analyze stEmpty exSubCat "f.js") = Except.ok 1
        ∧ Except.map List.length (EscapeSequence.analyze stEmpty exCallEsc "f.js") = Except.ok 1
        ∧ Except.map List.length (EscapeSequence.analyze stEmpty exSubEsc "f.js") = Except.ok 1) := by
  refine ⟨⟨rfl, rfl, rfl, rfl, rfl, rfl⟩, ?_,
    by simp +decide [StringConcat.resolve_concat, decodeLoop, Except.map],
    by simp +decide [StringConcat.resolve_concat, decodeLoop, Except.map],
    by simp +decide [StringConcat.resolve_concat, decodeLoop, Except.map],
    by simp +decide [StringConcat.resolve_concat, decodeLoop, Except.map],
    by simp +decide [StringConcat.resolve_concat, decodeLoop, Except.map],
    by simp +decide [StringConcat.resolve_concat, decodeLoop, Except.map]⟩
  intro st node sub path hk hfun hsk
  have h1 := subscriptOfNode_call node sub hk hfun hsk
  have h2 := subscriptOfNode_self sub hsk
  exact ⟨ca_analyze_call_eq_subscript st node sub path hk hfun hsk,
    sc_analyze_length_eq st st node sub sub path h1 h2,
    es_analyze_length_eq st st node sub sub path h1 h2⟩

/-- Witness for C9: on the concrete call `window["eval"](x)` with its
embedded subscript, all three per-node results agree. -/
theorem double_reporting_contract_witness :
    ComputedAccess.analyze stEmpty exCall "f.js" = ComputedAccess.analyze stEmpty exSub "f.js"
    ∧ Except.map List.length (StringConcat.analyze stEmpty exCall "f.js")
        = Except.map List.length (StringConcat.analyze stEmpty exSub "f.js")
    ∧ Except.map List.length (EscapeSequence.analyze stEmpty exCall "f.js")
        = Except.map List.length (EscapeSequence.analyze stEmpty exSub "f.js") :=
  double_reporting_contract.2.1 stEmpty exCall exSub "f.js" rfl rfl rfl

/-- Counterexample for C10: the variable-aliasing detector's import branch
hard-codes the rule id AST-SHELL-001 instead of its own rule_id(), so a
finding it emits for an aliased dangerous import does not carry
AST-EXEC-002, and AST-SHELL-001 findings do not come only from the
destructured-alias detector. -/
theorem variable_aliasing_emits_shell_rule_id :
    (VariableAliasing.analyze stRun exRunCall "f.js").map Finding.rule_id = ["AST-SHELL-001"]
    ∧ VariableAliasing.ruleId = "AST-EXEC-002"
    ∧ DestructuredAlias.ruleId = "AST-SHELL-001" := by
  refine ⟨by simp +decide, rfl, rfl⟩

theorem mem_foldl_checkChild (node : Node) (path module : String) :
    ∀ (l : List Node) (init : List Finding) (f : Finding),
      f ∈ l.foldl (fun acc child =>
        acc ++ DestructuredAlias.checkChild child node path module) init →
      f ∈ init ∨ ∃ c, f ∈ DestructuredAlias.checkChild c node path module := by
  intro l
  induction l with
  | nil => intro init f hf; exact Or.inl hf
  | cons c cs ih =>
    intro init f hf
    rcases ih _ f hf with h | h
    · rcases List.mem_append.mp h with h1 | h2
      · exact Or.inl h1
      · exact Or.inr ⟨c, h2⟩
    · exact Or.inr h

theorem checkChild_rule_id (child node : Node) (path module : String) (f : Finding)
    (hf : f ∈ DestructuredAlias.checkChild child node path module) :
    f.rule_id = "AST-SHELL-001" := by
  simp only [DestructuredAlias.checkChild] at hf
  repeat' split at hf
  all_goals simp at hf
  all_goals subst hf
  all_goals rfl

theorem va_rule_id (st : ScopeTracker) (node : Node) (path : String) (f : Finding)
    (hf : f ∈ VariableAliasing.analyze st node path) :
    f.rule_id = "AST-EXEC-002" ∨ f.rule_id = "AST-SHELL-001" := by
  simp only [VariableAliasing.analyze] at hf
  repeat' split at hf
  all_goals simp at hf
  all_goals subst hf
  all_goals first | exact Or.inl rfl | exact Or.inr rfl

theorem comma_rule_id (st : ScopeTracker) (node : Node) (path : String) (f : Finding)
    (hf : f ∈ CommaOperator.analyze st node path) :
    f.rule_id = "AST-EXEC-005" := by
  simp only [CommaOperator.analyze] at hf
  repeat' split at hf
  all_goals simp at hf
  all_goals subst hf
  all_goals rfl

theorem ca_rule_id (st : ScopeTracker) (node : Node) (path : String)
    (fs : List Finding) (f : Finding)
    (hok : ComputedAccess.analyze st node path = Except.ok fs) (hf : f ∈ fs) :
    f.rule_id = "AST-EXEC-001" := by
  simp only [ComputedAccess.analyze, ComputedAccess.check_subscript] at hok
  repeat' split at hok
  all_goals first
    | exact Except.noConfusion hok
    | (injection hok with h
       subst h
       simp at hf
       try subst hf
       try rfl)

theorem sc_rule_id (st : ScopeTracker) (node : Node) (path : String)
    (fs : List Finding) (f : Finding)
    (hok : StringConcat.analyze st node path = Except.ok fs) (hf : f ∈ fs) :
    f.rule_id = "AST-EXEC-003" := by
  simp only [StringConcat.analyze] at hok
  repeat' split at hok
  all_goals first
    | exact Except.noConfusion hok
    | (injection hok with h
       subst h
       simp at hf
       try subst hf
       try rfl)

theorem es_rule_id (st : ScopeTracker) (node : Node) (path : String)
    (fs : List Finding) (f : Finding)
    (hok : EscapeSequence.analyze st node path = Except.ok fs) (hf : f ∈ fs) :
    f.rule_id = "AST-EXEC-004" := by
  simp only [EscapeSequence.analyze] at hok
  repeat' split at hok
  all_goals first
    | exact Except.noConfusion hok
    | (injection hok with h
       subst h
       simp at hf
       try subst hf
       try rfl)

theorem da_rule_id (st : ScopeTracker) (node : Node) (ancestors : List Node) (path : String)
    (fs : List Finding) (f : Finding)
    (hok : DestructuredAlias.analyze st node ancestors path = Except.ok fs) (hf : f ∈ fs) :
    f.rule_id = "AST-SHELL-001" := by
  simp only [DestructuredAlias.analyze, DestructuredAlias.analyze_require_destructure,
    DestructuredAlias.analyze_import_alias] at hok
  repeat' split at hok
  all_goals first
    | exact Except.noConfusion hok
    | (injection hok with h
       subst h
       rcases mem_foldl_checkChild _ _ _ _ _ f hf with h1 | ⟨c, h2⟩
       · exact absurd h1 (by simp)
       · exact checkChild_rule_id c _ _ _ f h2)
    | (injection hok with h
       subst h
       simp at hf
       try subst hf
       try rfl)

/-- C10 (amended): every finding of the computed-access, string-concat,
escape-sequence, comma-operator and destructured-alias detectors carries
that detector's own rule_id(), and the six declared rule ids are pairwise
distinct; the variable-aliasing detector, however, emits its own
AST-EXEC-002 only in its dangerous-global branch and hard-codes
AST-SHELL-001 — the destructured-alias detector's rule id — in its
dangerous-import branch, so AST-SHELL-001 findings come from two
detectors. -/
theorem rule_id_ownership_amended :
    (∀ (st : ScopeTracker) (node : Node) (path : String) (f : Finding),
      f ∈ VariableAliasing.analyze st node path →
      f.rule_id = "AST-EXEC-002" ∨ f.rule_id = "AST-SHELL-001")
    ∧ (∀ (st : ScopeTracker) (node : Node) (path : String) (fs : List Finding) (f : Finding),
      ComputedAccess.analyze st node path = Except.ok fs → f ∈ fs →
      f.rule_id = "AST-EXEC-001")
    ∧ (∀ (st : ScopeTracker) (node : Node) (path : String) (fs : List Finding) (f : Finding),
      StringConcat.analyze st node path = Except.ok fs → f ∈ fs →
      f.rule_id = "AST-EXEC-003")
    ∧ (∀ (st : ScopeTracker) (node : Node) (path : String) (fs : List Finding) (f : Finding),
      EscapeSequence.analyze st node path = Except.ok fs → f ∈ fs →
      f.rule_id = "AST-EXEC-004")
    ∧ (∀ (st : ScopeTracker) (node : Node) (path : String) (f : Finding),
      f ∈ CommaOperator.analyze st node path → f.rule_id = "AST-EXEC-005")
    ∧ (∀ (st : ScopeTracker) (node : Node) (ancestors : List Node) (path : String)
        (fs : List Finding) (f : Finding),
      DestructuredAlias.analyze st node ancestors path = Except.ok fs → f ∈ fs →
      f.rule_id = "AST-SHELL-001")
    ∧ [ComputedAccess.ruleId, VariableAliasing.ruleId, StringConcat.ruleId,
        EscapeSequence.ruleId, CommaOperator.ruleId, DestructuredAlias.ruleId].Nodup :=
  ⟨va_rule_id, ca_rule_id, sc_rule_id, es_rule_id, comma_rule_id, da_rule_id, by decide⟩

/-- Witness for C10 (amended): the finding the variable-aliasing detector
emits for the aliased import call `run(cmd)` carries one of its two rule
ids (here the hard-coded AST-SHELL-001). -/
theorem rule_id_ownership_amended_witness :
    (VariableAliasing.mkImportFinding exRunCall exRunId "f.js" "run" "child_process"
      "exec").rule_id = "AST-EXEC-002"
    ∨ (VariableAliasing.mkImportFinding exRunCall exRunId "f.js" "run" "child_process"
      "exec").rule_id = "AST-SHELL-001" :=
  rule_id_ownership_amended.1 stRun exRunCall "f.js" _ (by simp +decide)
